import Mathlib

/-!
Verification of the `Color` class (src/src/Color.ts).

Shallow embedding conventions:
* JavaScript strings are modelled as `List Char`.
* JavaScript numbers are modelled as `ℚ` (every numeric value arising in the
  claims is exactly representable; `Math.round` is modelled by its ECMA
  semantics "nearest integer, ties toward +∞", i.e. `⌊v + 1/2⌋`).
* Color channels are stored as `ℤ`: `normalizeColorValue` always stores the
  result of `Math.round`, an integer.
* Each `throw` site of the source gets its own constructor of `JsError`.
* Fallible code returns `Except JsError _` / `Option _`.
-/

/-- Decidable equality for `Except`, so that concrete runs of the fallible
operations can be settled by `decide`. -/
instance {ε α : Type} [DecidableEq ε] [DecidableEq α] : DecidableEq (Except ε α) := fun a b =>
  match a, b with
  | .ok x, .ok y =>
    if h : x = y then .isTrue (by rw [h])
    else .isFalse (by intro hc; cases hc; exact h rfl)
  | .error x, .error y =>
    if h : x = y then .isTrue (by rw [h])
    else .isFalse (by intro hc; cases hc; exact h rfl)
  | .ok _, .error _ => .isFalse (by intro hc; cases hc)
  | .error _, .ok _ => .isFalse (by intro hc; cases hc)

/-- One constructor per throw site of the source file. -/
inductive JsError where
  /-- `throw new Error('Invalid rgb color : ...')` in `fromRGB`. -/
  | invalidRGB : JsError
  /-- `throw new Error('Invalid hsl color : ...')` in `fromHSL`. -/
  | invalidHSL : JsError
  /-- `throw new Error('Invalid hex color : ...')` in `fromHex`. -/
  | invalidHex : JsError
  /-- `throw new Error('Invalid color number format : ...')` in `parseColorNumber`. -/
  | numberFormat : JsError
  /-- `throw new RangeError('Invalid color number range [0-255] : ...')` in `parseColorNumber`. -/
  | colorNumberRange : JsError
  /-- `throw new Error('Invalid hex format : ...')` in `hexToDecimal`. -/
  | hexFormat : JsError
  /-- `throw new TypeError('Invalid value type')` in `normalizeColorValue`. -/
  | invalidType : JsError
  /-- `throw new RangeError('Invalid value range [0, 255]')` in `normalizeColorValue`. -/
  | valueRange : JsError
deriving DecidableEq, Repr

/-- The four private fields `_r`, `_g`, `_b`, `_a` of the `Color` class.
They always hold the result of `Math.round` (see `normalizeColorValue`),
hence the integer type. -/
structure Color where
  r : ℤ
  g : ℤ
  b : ℤ
  a : ℤ
deriving DecidableEq, Repr

/-- ECMA `Math.round`: the integer closest to `v`, ties toward `+∞`. -/
def jsRound (v : ℚ) : ℤ := ⌊v + 1 / 2⌋

/-- `Color.normalizeColorValue`.  The `Number(value)` / `isNaN` guard of the
source cannot fire in this embedding because the argument is already a
rational number; the `TypeError` branch (`JsError.invalidType`) is therefore
unreachable here.  `value = Math.round(value)`, then reject when
`(value < 0) || (value > 255)`. -/
def normalizeColorValue (v : ℚ) : Except JsError ℤ :=
  let n := jsRound v
  if n < 0 ∨ 255 < n then .error .valueRange else .ok n

/-- The `Color` constructor: assigns `this.r = r; this.g = g; this.b = b;
this.a = a`, each assignment re-validating through `normalizeColorValue`. -/
def mkColor (r g b a : ℚ) : Except JsError Color := do
  let nr ← normalizeColorValue r
  let ng ← normalizeColorValue g
  let nb ← normalizeColorValue b
  let na ← normalizeColorValue a
  pure ⟨nr, ng, nb, na⟩

/-- The setter `set r(value)`. -/
def Color.setR (c : Color) (v : ℚ) : Except JsError Color := do
  let n ← normalizeColorValue v
  pure ⟨n, c.g, c.b, c.a⟩

/-- The setter `set g(value)`. -/
def Color.setG (c : Color) (v : ℚ) : Except JsError Color := do
  let n ← normalizeColorValue v
  pure ⟨c.r, n, c.b, c.a⟩

/-- The setter `set b(value)`. -/
def Color.setB (c : Color) (v : ℚ) : Except JsError Color := do
  let n ← normalizeColorValue v
  pure ⟨c.r, c.g, n, c.a⟩

/-- The setter `set a(value)`. -/
def Color.setA (c : Color) (v : ℚ) : Except JsError Color := do
  let n ← normalizeColorValue v
  pure ⟨c.r, c.g, c.b, n⟩

/-- All four channels lie in the closed range `[0, 255]`. -/
def Color.InRange (c : Color) : Prop :=
  0 ≤ c.r ∧ c.r ≤ 255 ∧ 0 ≤ c.g ∧ c.g ≤ 255 ∧
  0 ≤ c.b ∧ c.b ≤ 255 ∧ 0 ≤ c.a ∧ c.a ≤ 255

instance (c : Color) : Decidable c.InRange := by
  unfold Color.InRange
  infer_instance

/-! ### Character classes and basic string helpers -/

/-- ASCII whitespace recognized by the JS `\s` regex class, `String.trim`,
`parseFloat` and `parseInt` (space, tab, LF, CR, VT, FF).  The claims only
involve ASCII input, so the non-ASCII members of the ECMA WhiteSpace set are
not modelled. -/
def isJsWs (c : Char) : Bool :=
  decide (c.toNat = 32 ∨ c.toNat = 9 ∨ c.toNat = 10 ∨
    c.toNat = 13 ∨ c.toNat = 11 ∨ c.toNat = 12)

/-- The regex class `\d` and the decimal-digit chars of `parseFloat`:
code points 48 (`0`) to 57 (`9`). -/
def isDigitChar (c : Char) : Bool :=
  decide (48 ≤ c.toNat ∧ c.toNat ≤ 57)

/-- Radix-16 digit chars of `parseInt(_, 16)`: `0`-`9`, `a`-`f`, `A`-`F`. -/
def isHexDigitChar (c : Char) : Bool :=
  decide ((48 ≤ c.toNat ∧ c.toNat ≤ 57) ∨ (97 ≤ c.toNat ∧ c.toNat ≤ 102) ∨
    (65 ≤ c.toNat ∧ c.toNat ≤ 70))

/-- Numeric value of a radix-16 digit char (0 for non-digits; only applied to
chars satisfying `isHexDigitChar`). -/
def hexDigitVal (c : Char) : ℕ :=
  if 48 ≤ c.toNat ∧ c.toNat ≤ 57 then c.toNat - 48
  else if 97 ≤ c.toNat ∧ c.toNat ≤ 102 then c.toNat - 87
  else if 65 ≤ c.toNat ∧ c.toNat ≤ 70 then c.toNat - 55
  else 0

/-- Value of a string of decimal digits. -/
def natVal (l : List Char) : ℕ :=
  l.foldl (fun acc c => 10 * acc + (c.toNat - 48)) 0

/-- Value of a string of radix-16 digits. -/
def hexValNat (l : List Char) : ℕ :=
  l.foldl (fun acc c => 16 * acc + hexDigitVal c) 0

/-- JS `String.prototype.trim`: drop whitespace from both ends. -/
def jsTrim (l : List Char) : List Char :=
  ((l.dropWhile isJsWs).reverse.dropWhile isJsWs).reverse

/-! ### `parseFloat` and `parseInt` (ECMA builtins used by the source) -/

/-- Optional exponent part of a decimal literal (`e`/`E` already consumed):
optional sign then digits.  When no digit follows, `parseFloat` does not
consume the exponent marker; returning exponent 0 models that, because the
value of the numeric prefix is then the mantissa alone. -/
def expPart (r : List Char) : ℤ :=
  let p : ℤ × List Char :=
    match r with
    | c :: t => if c = '+' then (1, t) else if c = '-' then (-1, t) else (1, r)
    | [] => (1, r)
  let eds := p.2.takeWhile isDigitChar
  if eds = [] then 0 else p.1 * (natVal eds : ℤ)

/-- Components of the longest signed-decimal-literal prefix recognized by
ECMA `parseFloat` (`[+-]? (Digits [. Digits?] | . Digits) [eE [+-] Digits]?`
after leading whitespace): sign, integer-part value, fraction-part value,
fraction-digit count, exponent.  `none` models `NaN` (no numeric prefix).
The `Infinity` literal has no rational value and is not modelled (treated as
no numeric prefix); no claim involves it. -/
def parseFloatParts (l : List Char) : Option (ℤ × ℕ × ℕ × ℕ × ℤ) :=
  let l1 := l.dropWhile isJsWs
  let sl : ℤ × List Char :=
    match l1 with
    | c :: r => if c = '+' then (1, r) else if c = '-' then (-1, r) else (1, l1)
    | [] => (1, l1)
  let ds := sl.2.takeWhile isDigitChar
  let l3 := sl.2.drop ds.length
  let fl : List Char × List Char :=
    match l3 with
    | c :: r =>
      if c = '.' then (r.takeWhile isDigitChar, r.drop (r.takeWhile isDigitChar).length)
      else ([], l3)
    | [] => ([], l3)
  if ds = [] ∧ fl.1 = [] then none
  else
    let ex : ℤ :=
      match fl.2 with
      | c :: r => if c = 'e' ∨ c = 'E' then expPart r else 0
      | [] => 0
    some (sl.1, natVal ds, natVal fl.1, fl.1.length, ex)

/-- Exact rational value of a parsed decimal literal. -/
def floatVal (sg : ℤ) (ip fp fd : ℕ) (ex : ℤ) : ℚ :=
  (sg : ℚ) * ((ip : ℚ) + (fp : ℚ) / (10 : ℚ) ^ fd) * (10 : ℚ) ^ ex

/-- ECMA `parseFloat`: the exact rational value of the longest numeric
prefix, `none` for `NaN`. -/
def parseFloatQ (l : List Char) : Option ℚ :=
  match parseFloatParts l with
  | none => none
  | some (sg, ip, fp, fd, ex) => some (floatVal sg ip fp fd ex)

/-- ECMA `parseInt(value, 16)`: skip leading whitespace, optional sign,
optional `0x`/`0X` prefix, then the longest prefix of radix-16 digits;
`none` models `NaN` (empty digit string). -/
def parseIntHex (l : List Char) : Option ℤ :=
  let l1 := l.dropWhile isJsWs
  let sl : ℤ × List Char :=
    match l1 with
    | c :: r => if c = '+' then (1, r) else if c = '-' then (-1, r) else (1, l1)
    | [] => (1, l1)
  let l3 :=
    match sl.2 with
    | c0 :: c1 :: r => if c0 = '0' ∧ (c1 = 'x' ∨ c1 = 'X') then r else sl.2
    | _ => sl.2
  let hs := l3.takeWhile isHexDigitChar
  if hs = [] then none else some (sl.1 * (hexValNat hs : ℤ))

/-! ### `parseColorNumber` and the hex codec -/

/-- `Color.parseColorNumber(stringNumber, max)` (the source's default
`max = 255` is passed explicitly at every call site of this embedding). -/
def parseColorNumber (l : List Char) (mx : ℚ) : Except JsError ℚ :=
  let t := jsTrim l
  match parseFloatQ t with
  | none => .error .numberFormat
  | some n =>
    let n1 := if t.getLast? = some '%' then n * (mx / 100) else n
    if n1 < 0 ∧ mx < n1 then .error .colorNumberRange else .ok n1

/-- `Color.hexToDecimal(value)`: `parseInt(value, 16)`, `NaN` throws. -/
def hexToDecimal (l : List Char) : Except JsError ℚ :=
  match parseIntHex l with
  | none => .error .hexFormat
  | some v => .ok (v : ℚ)

/-- Lowercase radix-16 digit char, as produced by `Number.prototype.toString(16)`. -/
def hexChar (n : ℕ) : Char :=
  if n < 10 then Char.ofNat (48 + n) else Char.ofNat (87 + n)

/-- Radix-16 digit string of a natural number (`Number.prototype.toString(16)`,
nonnegative integer case): most significant digit first, lowercase letters,
`0` for zero — exactly `Nat.toDigits 16`. -/
def natToHex16 (n : ℕ) : List Char := Nat.toDigits 16 n

/-- `value.toString(16)` for an integer value.  The call site (`decimalToHex`
applied to a stored channel) only ever receives integers, so the fractional
formatting of `toString` is not modelled. -/
def intToString16 (v : ℤ) : List Char :=
  if v < 0 then '-' :: natToHex16 v.natAbs else natToHex16 v.toNat

/-- `Color.decimalToHex(value, digits)` (the source's default `digits = 2` is
passed explicitly): truncate from the left when too long, else left-pad with
`0`. -/
def decimalToHex (v : ℤ) (digits : ℕ) : List Char :=
  let hex := intToString16 v
  if digits < hex.length then hex.take digits
  else List.replicate (digits - hex.length) '0' ++ hex

/-- `Color.prototype.toHex(alpha)`. -/
def Color.toHex (c : Color) (alpha : Bool) : List Char :=
  '#' :: (decimalToHex c.r 2 ++ decimalToHex c.g 2 ++ decimalToHex c.b 2 ++
    (if alpha then decimalToHex c.a 2 else []))

/-- The `#`-stripping step of `fromHex`:
`if (hexColor.startsWith('#')) hexColor = hexColor.slice(1)`. -/
def stripHash (l : List Char) : List Char :=
  match l with
  | c :: r => if c = '#' then r else l
  | [] => l

/-- `Color.fromHex(hexColor)`: trim, strip an optional leading `#`, then
switch on the length (3 / 6 / 8, anything else throws); `slice(i, j)` is
`(drop i).take (j - i)`; the 3-digit case reads single chars and lets the
constructor's alpha default to 255. -/
def fromHex (s : List Char) : Except JsError Color :=
  let t := stripHash (jsTrim s)
  if t.length = 3 then do
    let r ← hexToDecimal (t.take 1)
    let g ← hexToDecimal ((t.drop 1).take 1)
    let b ← hexToDecimal ((t.drop 2).take 1)
    mkColor r g b 255
  else if t.length = 6 ∨ t.length = 8 then do
    let r ← hexToDecimal (t.take 2)
    let g ← hexToDecimal ((t.drop 2).take 2)
    let b ← hexToDecimal ((t.drop 4).take 2)
    let a ← if t.length = 8 then hexToDecimal ((t.drop 6).take 2) else pure (255 : ℚ)
    mkColor r g b a
  else .error .invalidHex

/-! ### HSL ↔ RGB converters -/

/-- The `HSLAObject` interface: `h`, `s`, `l` numbers, `a` optional. -/
structure HSLAObject where
  h : ℚ
  s : ℚ
  l : ℚ
  a : Option ℚ
deriving DecidableEq, Repr

/-- `Color.hueToRGB(p, q, t)`: the two wrap steps are sequential
(`if (t < 0) t += 1; if (t > 1) t -= 1;`), then four piecewise segments. -/
def hueToRGB (p q t : ℚ) : ℚ :=
  let t1 := if t < 0 then t + 1 else t
  let t2 := if t1 > 1 then t1 - 1 else t1
  if t2 < 1 / 6 then p + (q - p) * 6 * t2
  else if t2 < 1 / 2 then q
  else if t2 < 2 / 3 then p + (q - p) * (2 / 3 - t2) * 6
  else p

/-- The pure `(r, g, b)` triple computed inside `fromHSLObject` before the
`* 255` scaling: achromatic when `s === 0`, otherwise the chroma midpoints
`q`, `p` and three `hueToRGB` evaluations. -/
def hslTriple (h s l : ℚ) : ℚ × ℚ × ℚ :=
  if s = 0 then (l, l, l)
  else
    let q := if l < 1 / 2 then l * (1 + s) else l + s - l * s
    let p := 2 * l - q
    (hueToRGB p q (h + 1 / 3), hueToRGB p q h, hueToRGB p q (h - 1 / 3))

/-- `Color.fromHSLObject(hslaObject)`.  The alpha argument of the constructor
is `hslaObject.a ? (hslaObject.a * 255) : 255`: JS truthiness, so both an
absent `a` and `a === 0` take the `255` branch. -/
def fromHSLObject (o : HSLAObject) : Except JsError Color :=
  let t := hslTriple o.h o.s o.l
  mkColor (t.1 * 255) (t.2.1 * 255) (t.2.2 * 255)
    (match o.a with
     | none => 255
     | some x => if x = 0 then 255 else x * 255)

/-- The `(h, s, l)` triple computed by `toHSLAObject` from the three scaled
channels: `Math.max`/`Math.min`, lightness, then the `switch (max)` with its
cases tested in source order `r`, `g`, `b` (the trailing `0` branch is
unreachable because `max` always equals one of the three). -/
def rgbToHSL (r g b : ℚ) : ℚ × ℚ × ℚ :=
  let mx := max r (max g b)
  let mn := min r (min g b)
  let l := (mx + mn) / 2
  if mx = mn then (0, 0, l)
  else
    let d := mx - mn
    let s := if 1 / 2 < l then d / (2 - mx - mn) else d / (mx + mn)
    let h0 :=
      if mx = r then (g - b) / d + (if g < b then 6 else 0)
      else if mx = g then (b - r) / d + 2
      else if mx = b then (r - g) / d + 4
      else 0
    (h0 / 6, s, l)

/-- `Color.prototype.toHSLAObject()`: the returned object always carries
`a = this.a / 255`. -/
def Color.toHSLAObject (c : Color) : HSLAObject :=
  let t := rgbToHSL ((c.r : ℚ) / 255) ((c.g : ℚ) / 255) ((c.b : ℚ) / 255)
  ⟨t.1, t.2.1, t.2.2, some ((c.a : ℚ) / 255)⟩

/-! ### Grammar matchers

The source compiles `'rgb(a)?\(' + P + ',' + P + ',' + P + '(?:,' + P + ')?\)'`
with `P = '\s*(\d+(?:\.\d+)?%?)\s*'` (same for `hsl`) and runs `exec`, which
returns the captures of the leftmost match.  For this pattern, backtracking
never changes the outcome of a match attempt at a fixed start position:
every quantifier's continuation starts with a character class disjoint from
the quantified class (`\d+` is followed by `.`/`%`/whitespace/`,`/`)`, never
a digit; `\s*` is followed by a non-space; `(?:\.\d+)?` can succeed only when
a `.` and a digit follow; `(a)?` can succeed only when an `a` follows, and
when it fails the mandatory `\(` fails on the same `a`).  The matcher below
is therefore the deterministic equivalent: it commits to the unique viable
alternative at each point, and `execScan` tries successive start positions
like `exec` does. -/

/-- Captures of one regex match: group 1 (the alpha marker `(a)`),
groups 2-4 (the three mandatory numeric tokens), group 5 (the optional
fourth token). -/
structure MatchCaps where
  g1 : Option (List Char)
  g2 : List Char
  g3 : List Char
  g4 : List Char
  g5 : Option (List Char)
deriving DecidableEq, Repr

/-- One numeric token `\s*(\d+(?:\.\d+)?%?)\s*`: returns the captured token
and the remaining input (after the trailing whitespace). -/
def matchNum (l : List Char) : Option (List Char × List Char) :=
  let l1 := l.dropWhile isJsWs
  let ds := l1.takeWhile isDigitChar
  if ds = [] then none
  else
    let l2 := l1.drop ds.length
    let fl : List Char × List Char :=
      match l2 with
      | c :: r =>
        if c = '.' then
          let fs := r.takeWhile isDigitChar
          if fs = [] then ([], l2) else ('.' :: fs, r.drop fs.length)
        else ([], l2)
      | [] => ([], l2)
    let pl : List Char × List Char :=
      match fl.2 with
      | c :: r => if c = '%' then (['%'], r) else ([], fl.2)
      | [] => ([], fl.2)
    some (ds ++ fl.1 ++ pl.1, pl.2.dropWhile isJsWs)

/-- The token list after the opening paren: `P ',' P ',' P (?:',' P)? '\)'`
(the match ends at the closing paren; trailing input is ignored, as `exec`
does not anchor the end). -/
def matchTail (l : List Char) :
    Option (List Char × List Char × List Char × Option (List Char)) :=
  match matchNum l with
  | none => none
  | some (t1, r1) =>
    match r1 with
    | c1 :: r1' =>
      if c1 = ',' then
        match matchNum r1' with
        | none => none
        | some (t2, r2) =>
          match r2 with
          | c2 :: r2' =>
            if c2 = ',' then
              match matchNum r2' with
              | none => none
              | some (t3, r3) =>
                match r3 with
                | c3 :: r3' =>
                  if c3 = ')' then some (t1, t2, t3, none)
                  else if c3 = ',' then
                    match matchNum r3' with
                    | none => none
                    | some (t4, r4) =>
                      match r4 with
                      | c4 :: _ => if c4 = ')' then some (t1, t2, t3, some t4) else none
                      | [] => none
                  else none
                | [] => none
            else none
          | [] => none
      else none
    | [] => none

/-- Match a literal keyword (`rgb` / `hsl`) at the head of the input. -/
def dropKw : List Char → List Char → Option (List Char)
  | [], l => some l
  | _ :: _, [] => none
  | k :: ks, c :: cs => if c = k then dropKw ks cs else none

/-- One match attempt of `kw(a)?\(` + tail at the current position. -/
def tryAt (kw : List Char) (l : List Char) : Option MatchCaps :=
  match dropKw kw l with
  | none => none
  | some l1 =>
    let ml : Option (List Char) × List Char :=
      match l1 with
      | c :: r => if c = 'a' then (some ['a'], r) else (none, l1)
      | [] => (none, l1)
    match ml.2 with
    | c :: r =>
      if c = '(' then
        match matchTail r with
        | none => none
        | some (t1, t2, t3, t4) => some ⟨ml.1, t1, t2, t3, t4⟩
      else none
    | [] => none

/-- `RegExp.prototype.exec` on a non-global regex: try each start position
from the left, return the captures of the first successful one. -/
def execScan (kw : List Char) : List Char → Option MatchCaps
  | [] => tryAt kw []
  | c :: cs =>
    match tryAt kw (c :: cs) with
    | some m => some m
    | none => execScan kw cs

/-- Keyword of `Color.rgbaRegExp`. -/
def rgbKw : List Char := ['r', 'g', 'b']

/-- Keyword of `Color.hslaRegExp`. -/
def hslKw : List Char := ['h', 's', 'l']

/-- `Color.fromRGB(rgbColor)`: run the regex, require
`typeof match[1] === typeof match[5]` (both `undefined` or both strings),
then build the Color; the fourth token is parsed with `max = 1` and expanded
by `* 255`, defaulting to 255 when absent. -/
def fromRGB (s : List Char) : Except JsError Color :=
  match execScan rgbKw s with
  | none => .error .invalidRGB
  | some m =>
    if m.g1.isSome = m.g5.isSome then do
      let r ← parseColorNumber m.g2 255
      let g ← parseColorNumber m.g3 255
      let b ← parseColorNumber m.g4 255
      let a ← match m.g5 with
        | none => pure (255 : ℚ)
        | some t => do
          let v ← parseColorNumber t 1
          pure (v * 255)
      mkColor r g b a
    else .error .invalidRGB

/-- `Color.fromHSL(hslColor)`: same structural check, then
`fromHSLObject` with `h` scaled to 360 and divided by 360, `s`, `l`, `a`
scaled to 1, `a` defaulting to 1 when absent (the object literal always
carries the `a` field). -/
def fromHSL (s : List Char) : Except JsError Color :=
  match execScan hslKw s with
  | none => .error .invalidHSL
  | some m =>
    if m.g1.isSome = m.g5.isSome then do
      let hv ← parseColorNumber m.g2 360
      let sv ← parseColorNumber m.g3 1
      let lv ← parseColorNumber m.g4 1
      let av ← match m.g5 with
        | none => pure (1 : ℚ)
        | some t => parseColorNumber t 1
      fromHSLObject ⟨hv / 360, sv, lv, some av⟩
    else .error .invalidHSL

/-! ### General helper lemmas -/

theorem exBind_ok {α β : Type} (x : α) (f : α → Except JsError β) :
    (Except.ok x : Except JsError α) >>= f = f x := rfl

theorem exBind_err {α β : Type} (e : JsError) (f : α → Except JsError β) :
    (Except.error e : Except JsError α) >>= f = Except.error e := rfl

theorem exPure {α : Type} (x : α) : (pure x : Except JsError α) = Except.ok x := rfl

theorem jsRound_intCast (n : ℤ) : jsRound ((n : ℚ)) = n := by
  unfold jsRound
  rw [add_comm, Int.floor_add_int]
  norm_num

theorem normalizeColorValue_ok_iff (v : ℚ) (n : ℤ) :
    normalizeColorValue v = .ok n ↔ n = jsRound v ∧ 0 ≤ n ∧ n ≤ 255 := by
  unfold normalizeColorValue
  dsimp only
  split
  · next h =>
    constructor
    · intro hc
      exact absurd hc (by simp)
    · rintro ⟨rfl, h1, h2⟩
      omega
  · next h =>
    push_neg at h
    simp only [Except.ok.injEq]
    constructor
    · rintro rfl
      exact ⟨rfl, h.1, h.2⟩
    · rintro ⟨rfl, -, -⟩
      rfl

theorem normalizeColorValue_error (v : ℚ) (e : JsError)
    (h : normalizeColorValue v = .error e) : e = .valueRange := by
  unfold normalizeColorValue at h
  dsimp only at h
  split at h
  · exact (Except.error.injEq _ _).mp h.symm
  · exact absurd h (by simp)

theorem normalizeColorValue_intCast (n : ℤ) :
    normalizeColorValue ((n : ℚ)) =
      if n < 0 ∨ 255 < n then .error .valueRange else .ok n := by
  unfold normalizeColorValue
  rw [jsRound_intCast]

theorem mkColor_ok_inv (r g b a : ℚ) (c : Color) (h : mkColor r g b a = .ok c) :
    normalizeColorValue r = .ok c.r ∧ normalizeColorValue g = .ok c.g ∧
    normalizeColorValue b = .ok c.b ∧ normalizeColorValue a = .ok c.a := by
  unfold mkColor at h
  cases hr : normalizeColorValue r with
  | error e => rw [hr, exBind_err] at h; exact absurd h (by simp)
  | ok nr =>
    rw [hr, exBind_ok] at h
    cases hg : normalizeColorValue g with
    | error e => rw [hg, exBind_err] at h; exact absurd h (by simp)
    | ok ng =>
      rw [hg, exBind_ok] at h
      cases hb : normalizeColorValue b with
      | error e => rw [hb, exBind_err] at h; exact absurd h (by simp)
      | ok nb =>
        rw [hb, exBind_ok] at h
        cases ha : normalizeColorValue a with
        | error e => rw [ha, exBind_err] at h; exact absurd h (by simp)
        | ok na =>
          rw [ha, exBind_ok, exPure] at h
          injection h with h2
          rw [← h2]
          exact ⟨rfl, rfl, rfl, rfl⟩

theorem mkColor_ok_of (r g b a : ℚ) (nr ng nb na : ℤ)
    (hr : normalizeColorValue r = .ok nr) (hg : normalizeColorValue g = .ok ng)
    (hb : normalizeColorValue b = .ok nb) (ha : normalizeColorValue a = .ok na) :
    mkColor r g b a = .ok ⟨nr, ng, nb, na⟩ := by
  unfold mkColor
  rw [hr, exBind_ok, hg, exBind_ok, hb, exBind_ok, ha, exBind_ok, exPure]

theorem mkColor_error_of_bad (r g b a : ℚ)
    (h : normalizeColorValue r = .error .valueRange ∨
      normalizeColorValue g = .error .valueRange ∨
      normalizeColorValue b = .error .valueRange ∨
      normalizeColorValue a = .error .valueRange) :
    mkColor r g b a = .error .valueRange := by
  unfold mkColor
  cases hr : normalizeColorValue r with
  | error e =>
    rw [exBind_err, normalizeColorValue_error r e hr]
  | ok nr =>
    rw [exBind_ok]
    rw [hr] at h
    cases hg : normalizeColorValue g with
    | error e =>
      rw [exBind_err, normalizeColorValue_error g e hg]
    | ok ng =>
      rw [exBind_ok]
      rw [hg] at h
      cases hb : normalizeColorValue b with
      | error e =>
        rw [exBind_err, normalizeColorValue_error b e hb]
      | ok nb =>
        rw [exBind_ok]
        rw [hb] at h
        cases ha : normalizeColorValue a with
        | error e =>
          rw [exBind_err, normalizeColorValue_error a e ha]
        | ok na =>
          rw [ha] at h
          rcases h with h | h | h | h <;> exact absurd h (by simp)

theorem setR_ok_inv (c : Color) (v : ℚ) (c' : Color) (h : c.setR v = .ok c') :
    normalizeColorValue v = .ok c'.r ∧ c'.g = c.g ∧ c'.b = c.b ∧ c'.a = c.a := by
  unfold Color.setR at h
  cases hn : normalizeColorValue v with
  | error e => rw [hn, exBind_err] at h; exact absurd h (by simp)
  | ok n =>
    rw [hn, exBind_ok, exPure] at h
    injection h with h2
    rw [← h2]
    exact ⟨rfl, rfl, rfl, rfl⟩

theorem setG_ok_inv (c : Color) (v : ℚ) (c' : Color) (h : c.setG v = .ok c') :
    normalizeColorValue v = .ok c'.g ∧ c'.r = c.r ∧ c'.b = c.b ∧ c'.a = c.a := by
  unfold Color.setG at h
  cases hn : normalizeColorValue v with
  | error e => rw [hn, exBind_err] at h; exact absurd h (by simp)
  | ok n =>
    rw [hn, exBind_ok, exPure] at h
    injection h with h2
    rw [← h2]
    exact ⟨rfl, rfl, rfl, rfl⟩

theorem setB_ok_inv (c : Color) (v : ℚ) (c' : Color) (h : c.setB v = .ok c') :
    normalizeColorValue v = .ok c'.b ∧ c'.r = c.r ∧ c'.g = c.g ∧ c'.a = c.a := by
  unfold Color.setB at h
  cases hn : normalizeColorValue v with
  | error e => rw [hn, exBind_err] at h; exact absurd h (by simp)
  | ok n =>
    rw [hn, exBind_ok, exPure] at h
    injection h with h2
    rw [← h2]
    exact ⟨rfl, rfl, rfl, rfl⟩

theorem setA_ok_inv (c : Color) (v : ℚ) (c' : Color) (h : c.setA v = .ok c') :
    normalizeColorValue v = .ok c'.a ∧ c'.r = c.r ∧ c'.g = c.g ∧ c'.b = c.b := by
  unfold Color.setA at h
  cases hn : normalizeColorValue v with
  | error e => rw [hn, exBind_err] at h; exact absurd h (by simp)
  | ok n =>
    rw [hn, exBind_ok, exPure] at h
    injection h with h2
    rw [← h2]
    exact ⟨rfl, rfl, rfl, rfl⟩

/-! ### Claim C1 -/

/-- C1 (confirmed): every observable `Color` — after construction and after
every setter call — has all four channels in `[0, 255]` (they are integers
by construction: `normalizeColorValue` stores the `Math.round` result).
Every channel write passes through `normalizeColorValue`, which rejects
out-of-range values instead of storing them, and each setter revalidates
only its own channel while leaving the others (already validated) unchanged. -/
theorem claim_C1 :
    (∀ (r g b a : ℚ) (c : Color), mkColor r g b a = .ok c → c.InRange) ∧
    (∀ (c : Color) (v : ℚ) (c' : Color), c.InRange → c.setR v = .ok c' → c'.InRange) ∧
    (∀ (c : Color) (v : ℚ) (c' : Color), c.InRange → c.setG v = .ok c' → c'.InRange) ∧
    (∀ (c : Color) (v : ℚ) (c' : Color), c.InRange → c.setB v = .ok c' → c'.InRange) ∧
    (∀ (c : Color) (v : ℚ) (c' : Color), c.InRange → c.setA v = .ok c' → c'.InRange) := by
  refine ⟨?_, ?_, ?_, ?_, ?_⟩
  · intro r g b a c h
    obtain ⟨hr, hg, hb, ha⟩ := mkColor_ok_inv r g b a c h
    rw [normalizeColorValue_ok_iff] at hr hg hb ha
    exact ⟨hr.2.1, hr.2.2, hg.2.1, hg.2.2, hb.2.1, hb.2.2, ha.2.1, ha.2.2⟩
  · intro c v c' hc h
    obtain ⟨hn, h1, h2, h3⟩ := setR_ok_inv c v c' h
    rw [normalizeColorValue_ok_iff] at hn
    obtain ⟨-, -, g1, g2, b1, b2, a1, a2⟩ := hc
    exact ⟨hn.2.1, hn.2.2, h1 ▸ g1, h1 ▸ g2, h2 ▸ b1, h2 ▸ b2, h3 ▸ a1, h3 ▸ a2⟩
  · intro c v c' hc h
    obtain ⟨hn, h1, h2, h3⟩ := setG_ok_inv c v c' h
    rw [normalizeColorValue_ok_iff] at hn
    obtain ⟨r1, r2, -, -, b1, b2, a1, a2⟩ := hc
    exact ⟨h1 ▸ r1, h1 ▸ r2, hn.2.1, hn.2.2, h2 ▸ b1, h2 ▸ b2, h3 ▸ a1, h3 ▸ a2⟩
  · intro c v c' hc h
    obtain ⟨hn, h1, h2, h3⟩ := setB_ok_inv c v c' h
    rw [normalizeColorValue_ok_iff] at hn
    obtain ⟨r1, r2, g1, g2, -, -, a1, a2⟩ := hc
    exact ⟨h1 ▸ r1, h1 ▸ r2, h2 ▸ g1, h2 ▸ g2, hn.2.1, hn.2.2, h3 ▸ a1, h3 ▸ a2⟩
  · intro c v c' hc h
    obtain ⟨hn, h1, h2, h3⟩ := setA_ok_inv c v c' h
    rw [normalizeColorValue_ok_iff] at hn
    obtain ⟨r1, r2, g1, g2, b1, b2, -, -⟩ := hc
    exact ⟨h1 ▸ r1, h1 ▸ r2, h2 ▸ g1, h2 ▸ g2, h3 ▸ b1, h3 ▸ b2, hn.2.1, hn.2.2⟩

/-- Witness for C1: the invariant theorem applied to a concrete construction
and a concrete setter call. -/
theorem claim_C1_witness :
    (Color.mk 10 20 30 40).InRange ∧ (Color.mk 0 20 30 40).InRange :=
  ⟨claim_C1.1 10 20 30 40 ⟨10, 20, 30, 40⟩
      (by norm_num [mkColor, normalizeColorValue, jsRound, exBind_ok, exPure]),
    claim_C1.2.1 ⟨10, 20, 30, 40⟩ 0 ⟨0, 20, 30, 40⟩ (by decide)
      (by norm_num [Color.setR, normalizeColorValue, jsRound, exBind_ok, exPure])⟩

/-! ### Claim C8 -/

/-- C8 counterexample: the claim says `−0.5` rounds away from zero to `−1`
and is then rejected as out of range; the code's `Math.round` rounds ties
toward `+∞`, so `normalizeColorValue(−0.5)` returns `0` and is accepted. -/
theorem claim_C8_counterexample :
    normalizeColorValue (-(1 / 2)) = .ok 0 := by
  norm_num [normalizeColorValue, jsRound]

/-- C8 (amended): `normalizeColorValue` rounds to the nearest integer with
exact halves rounded toward `+∞` (`⌊v + 1/2⌋`: `0.5 ↦ 1`, but `−0.5 ↦ 0`,
which is accepted), and rejects with the range error exactly when the
rounded value lies outside `[0, 255]`; in particular constructing a Color
with any channel equal to `256` or `−1` fails with the range error. -/
theorem claim_C8 :
    (∀ (v : ℚ) (n : ℤ),
      normalizeColorValue v = .ok n ↔ n = ⌊v + 1 / 2⌋ ∧ 0 ≤ n ∧ n ≤ 255) ∧
    (∀ v : ℚ, ¬(0 ≤ ⌊v + 1 / 2⌋ ∧ ⌊v + 1 / 2⌋ ≤ 255) →
      normalizeColorValue v = .error .valueRange) ∧
    normalizeColorValue (1 / 2) = .ok 1 ∧
    (∀ r g b a : ℚ,
      r = 256 ∨ r = -1 ∨ g = 256 ∨ g = -1 ∨ b = 256 ∨ b = -1 ∨ a = 256 ∨ a = -1 →
      mkColor r g b a = .error .valueRange) := by
  have h256 : normalizeColorValue 256 = .error .valueRange := by
    norm_num [normalizeColorValue, jsRound]
  have hneg : normalizeColorValue (-1) = .error .valueRange := by
    norm_num [normalizeColorValue, jsRound]
  refine ⟨?_, ?_, ?_, ?_⟩
  · intro v n
    exact normalizeColorValue_ok_iff v n
  · intro v hv
    unfold normalizeColorValue jsRound
    rw [if_pos (by omega)]
  · norm_num [normalizeColorValue, jsRound]
  · intro r g b a h
    apply mkColor_error_of_bad
    rcases h with h | h | h | h | h | h | h | h <;> rw [h]
    · exact Or.inl h256
    · exact Or.inl hneg
    · exact Or.inr (Or.inl h256)
    · exact Or.inr (Or.inl hneg)
    · exact Or.inr (Or.inr (Or.inl h256))
    · exact Or.inr (Or.inr (Or.inl hneg))
    · exact Or.inr (Or.inr (Or.inr h256))
    · exact Or.inr (Or.inr (Or.inr hneg))

/-- Witness for C8: the amended theorem applied at concrete inputs
(`v = 300` for the rejection clause, `r = 256` for the constructor clause). -/
theorem claim_C8_witness :
    normalizeColorValue 300 = .error .valueRange ∧
    mkColor 256 0 0 0 = .error .valueRange :=
  ⟨claim_C8.2.1 300 (by norm_num),
    claim_C8.2.2.2 256 0 0 0 (Or.inl rfl)⟩

/-! ### Claim C4 -/

/-- C4 counterexample: with a negative maximum the impossible-looking guard
`(number < 0) && (number > max)` does fire: `parseColorNumber("-3", -5)`
parses `−3` (`parseFloat` accepts a sign), and `−3 < 0 ∧ −5 < −3` holds, so
the `RangeError` is raised — the claim quantifies over every maximum and is
therefore false. -/
theorem claim_C4_counterexample :
    parseColorNumber (("-3").toList) (-5) = .error .colorNumberRange := by
  rw [parseColorNumber, parseFloatQ,
    show parseFloatParts (jsTrim (("-3").toList)) = some (-1, 3, 0, 0, 0) from by decide,
    show (jsTrim (("-3").toList)).getLast? = some '3' from by decide]
  norm_num +decide [floatVal]

/-- C4 (amended): for every nonnegative maximum — in particular for the
maxima 255, 1 and 360 actually passed by the program — `parseColorNumber`
never raises its `RangeError`, because `value < 0 ∧ value > max` is
unsatisfiable when `0 ≤ max`. -/
theorem claim_C4 :
    ∀ (l : List Char) (mx : ℚ), 0 ≤ mx →
      parseColorNumber l mx ≠ .error .colorNumberRange := by
  intro l mx hmx
  unfold parseColorNumber
  dsimp only
  split
  · intro hc
    simp at hc
  · rename_i n
    by_cases hp : (jsTrim l).getLast? = some '%'
    · rw [if_pos hp]
      split
      · next hcond => exact absurd hcond.2 (by linarith [hcond.1])
      · intro hc
        simp at hc
    · rw [if_neg hp]
      split
      · next hcond => exact absurd hcond.2 (by linarith [hcond.1])
      · intro hc
        simp at hc

/-- Witness for C4: the amended theorem applied at the token `"-3"` with the
program's default maximum 255. -/
theorem claim_C4_witness :
    parseColorNumber (("-3").toList) 255 ≠ .error .colorNumberRange :=
  claim_C4 (("-3").toList) 255 (by norm_num)

/-! ### Claim C5 -/

/-- C5 counterexample: the claim says an input with alpha explicitly 0 yields
a Color with alpha channel 0; the code's truthiness test
`hslaObject.a ? (hslaObject.a * 255) : 255` treats `a === 0` like an absent
alpha, so the resulting alpha channel is 255, not 0. -/
theorem claim_C5_counterexample :
    fromHSLObject ⟨0, 0, 0, some 0⟩ = .ok ⟨0, 0, 0, 255⟩ := by
  norm_num [fromHSLObject, hslTriple, mkColor, normalizeColorValue, jsRound,
    exBind_ok, exPure]

/-- C5 (amended): in `fromHSLObject` the alpha channel equals
`round(a * 255)` whenever the alpha field is present *and nonzero* (truthy);
when it is absent *or zero* the alpha channel defaults to full opacity 255. -/
theorem claim_C5 (o : HSLAObject) (c : Color) (h : fromHSLObject o = .ok c) :
    ((o.a = none ∨ o.a = some 0) → c.a = 255) ∧
    (∀ x : ℚ, o.a = some x → x ≠ 0 → c.a = jsRound (x * 255)) := by
  unfold fromHSLObject at h
  obtain ⟨-, -, -, ha⟩ := mkColor_ok_inv _ _ _ _ _ h
  constructor
  · rintro (h0 | h0) <;> rw [h0] at ha <;> dsimp only at ha
    · rw [normalizeColorValue_ok_iff] at ha
      rw [ha.1]
      norm_num [jsRound]
    · rw [if_pos rfl] at ha
      rw [normalizeColorValue_ok_iff] at ha
      rw [ha.1]
      norm_num [jsRound]
  · intro x hx hxne
    rw [hx] at ha
    dsimp only at ha
    rw [if_neg hxne] at ha
    rw [normalizeColorValue_ok_iff] at ha
    exact ha.1

/-- Witness for C5: the amended theorem applied to a concrete conversion with
present, nonzero alpha (`a = 1`), whose alpha channel is `round(1 * 255)`. -/
theorem claim_C5_witness :
    (Color.mk 255 255 255 255).a = jsRound ((1 : ℚ) * 255) :=
  (claim_C5 ⟨0, 0, 1, some 1⟩ ⟨255, 255, 255, 255⟩
      (by norm_num [fromHSLObject, hslTriple, mkColor, normalizeColorValue,
        jsRound, exBind_ok, exPure])).2
    1 rfl (by norm_num)

/-! ### Hex codec lemmas -/

theorem dropWhile_eq_self_of (p : Char → Bool) (l : List Char)
    (h : ∀ c ∈ l, p c = false) : l.dropWhile p = l := by
  cases l with
  | nil => rfl
  | cons a t =>
    exact List.dropWhile_cons_of_neg (by simp [h a (List.mem_cons_self a t)])

theorem jsTrim_eq_self (l : List Char) (h : ∀ c ∈ l, isJsWs c = false) :
    jsTrim l = l := by
  unfold jsTrim
  rw [dropWhile_eq_self_of _ _ h,
    dropWhile_eq_self_of _ _ (fun c hc => h c (List.mem_reverse.mp hc))]
  exact List.reverse_reverse l

theorem stripHash_hash (l : List Char) : stripHash ('#' :: l) = l := by
  show (if '#' = '#' then l else '#' :: l) = l
  rw [if_pos rfl]

set_option maxRecDepth 8192 in
theorem decimalToHex_fin : ∀ n : Fin 256,
    parseIntHex (decimalToHex ((n : ℕ) : ℤ) 2) = some ((n : ℕ) : ℤ) ∧
    (decimalToHex ((n : ℕ) : ℤ) 2).length = 2 ∧
    (decimalToHex ((n : ℕ) : ℤ) 2).all (fun c => !isJsWs c) = true := by
  decide

theorem decimalToHex_spec (v : ℤ) (h0 : 0 ≤ v) (h1 : v ≤ 255) :
    parseIntHex (decimalToHex v 2) = some v ∧
    (decimalToHex v 2).length = 2 ∧
    ∀ c ∈ decimalToHex v 2, isJsWs c = false := by
  have hlt : v.toNat < 256 := by omega
  have hv : ((((⟨v.toNat, hlt⟩ : Fin 256) : ℕ)) : ℤ) = v := by
    simp [Int.toNat_of_nonneg h0]
  obtain ⟨ha, hb, hc⟩ := decimalToHex_fin ⟨v.toNat, hlt⟩
  rw [hv] at ha hb hc
  refine ⟨ha, hb, fun c hcm => ?_⟩
  have := (List.all_eq_true.mp hc) c hcm
  simpa using this

theorem hexToDecimal_decimalToHex (v : ℤ) (h0 : 0 ≤ v) (h1 : v ≤ 255) :
    hexToDecimal (decimalToHex v 2) = .ok ((v : ℚ)) := by
  unfold hexToDecimal
  rw [(decimalToHex_spec v h0 h1).1]

/-! ### Claim C2 -/

theorem take_drop_append4 (p1 p2 p3 p4 : List Char)
    (h1 : p1.length = 2) (h2 : p2.length = 2) (h3 : p3.length = 2)
    (h4 : p4.length = 2) :
    (p1 ++ p2 ++ p3 ++ p4).take 2 = p1 ∧
    ((p1 ++ p2 ++ p3 ++ p4).drop 2).take 2 = p2 ∧
    ((p1 ++ p2 ++ p3 ++ p4).drop 4).take 2 = p3 ∧
    ((p1 ++ p2 ++ p3 ++ p4).drop 6).take 2 = p4 ∧
    (p1 ++ p2 ++ p3 ++ p4).length = 8 := by
  refine ⟨?_, ?_, ?_, ?_, ?_⟩
  · rw [List.append_assoc, List.append_assoc]
    exact List.take_left' h1
  · rw [List.append_assoc, List.append_assoc, List.drop_left' h1]
    exact List.take_left' h2
  · rw [List.append_assoc, List.drop_left' (by simp [h1, h2])]
    exact List.take_left' h3
  · rw [List.drop_left' (by simp [h1, h2, h3]), ← h4]
    exact List.take_length p4
  · simp [h1, h2, h3, h4]

/-- C2 (confirmed): for all integer channels in `[0, 255]`,
`fromHex (toHex c alpha=true)` returns exactly the original Color: `toHex`
emits `#` plus four 2-digit lowercase hex pairs, and `fromHex` parses them
back to the same four channel values. -/
theorem claim_C2 (r g b a : ℤ)
    (hr0 : 0 ≤ r) (hr1 : r ≤ 255) (hg0 : 0 ≤ g) (hg1 : g ≤ 255)
    (hb0 : 0 ≤ b) (hb1 : b ≤ 255) (ha0 : 0 ≤ a) (ha1 : a ≤ 255) :
    fromHex ((Color.mk r g b a).toHex true) = .ok ⟨r, g, b, a⟩ := by
  obtain ⟨pr, lr, wr⟩ := decimalToHex_spec r hr0 hr1
  obtain ⟨pg, lg, wg⟩ := decimalToHex_spec g hg0 hg1
  obtain ⟨pb, lb, wb⟩ := decimalToHex_spec b hb0 hb1
  obtain ⟨pa, la, wa⟩ := decimalToHex_spec a ha0 ha1
  obtain ⟨s1, s2, s3, s4, hlen⟩ :=
    take_drop_append4 (decimalToHex r 2) (decimalToHex g 2) (decimalToHex b 2)
      (decimalToHex a 2) lr lg lb la
  unfold Color.toHex fromHex
  dsimp only
  rw [if_pos rfl]
  rw [jsTrim_eq_self _ ?allws]
  case allws =>
    intro c hc
    rcases List.mem_cons.mp hc with rfl | hc2
    · decide
    · rcases List.mem_append.mp hc2 with h | h
      · rcases List.mem_append.mp h with h | h
        · rcases List.mem_append.mp h with h | h
          · exact wr c h
          · exact wg c h
        · exact wb c h
      · exact wa c h
  rw [stripHash_hash]
  rw [if_neg (by omega), if_pos (Or.inr hlen)]
  rw [s1, s2, s3]
  simp only [hlen, reduceIte]
  rw [s4]
  rw [hexToDecimal_decimalToHex r hr0 hr1, exBind_ok,
    hexToDecimal_decimalToHex g hg0 hg1, exBind_ok,
    hexToDecimal_decimalToHex b hb0 hb1, exBind_ok,
    hexToDecimal_decimalToHex a ha0 ha1, exBind_ok]
  exact mkColor_ok_of _ _ _ _ r g b a
    (by rw [normalizeColorValue_intCast, if_neg (by omega)])
    (by rw [normalizeColorValue_intCast, if_neg (by omega)])
    (by rw [normalizeColorValue_intCast, if_neg (by omega)])
    (by rw [normalizeColorValue_intCast, if_neg (by omega)])

/-- Witness for C2: the round trip at the concrete color (17, 103, 200, 128),
whose hex form is `#1167c880`. -/
theorem claim_C2_witness :
    fromHex ((Color.mk 17 103 200 128).toHex true) = .ok ⟨17, 103, 200, 128⟩ :=
  claim_C2 17 103 200 128 (by decide) (by decide) (by decide) (by decide)
    (by decide) (by decide) (by decide) (by decide)

/-! ### Single and pair hex-digit parsing -/

theorem hexDigit_not_ws (c : Char) (h : isHexDigitChar c = true) :
    isJsWs c = false := by
  simp only [isHexDigitChar, decide_eq_true_eq] at h
  unfold isJsWs
  exact decide_eq_false (by omega)

theorem hexDigit_ne (c : Char) (h : isHexDigitChar c = true) :
    c ≠ '+' ∧ c ≠ '-' ∧ c ≠ 'x' ∧ c ≠ 'X' := by
  refine ⟨?_, ?_, ?_, ?_⟩ <;> rintro rfl <;> revert h <;> decide

theorem hexDigitVal_lt (c : Char) (h : isHexDigitChar c = true) :
    hexDigitVal c < 16 := by
  simp only [isHexDigitChar, decide_eq_true_eq] at h
  unfold hexDigitVal
  split
  · omega
  · split
    · omega
    · split
      · omega
      · omega

theorem parseIntHex_single (c : Char) (h : isHexDigitChar c = true) :
    parseIntHex [c] = some ((hexDigitVal c : ℤ)) := by
  obtain ⟨hp, hm, hx, hX⟩ := hexDigit_ne c h
  have hws : [c].dropWhile isJsWs = [c] :=
    dropWhile_eq_self_of _ _ (by
      intro x hxm
      rw [List.mem_singleton.mp hxm]
      exact hexDigit_not_ws c h)
  unfold parseIntHex
  dsimp only
  rw [hws]
  dsimp only
  rw [if_neg hp, if_neg hm]
  dsimp only
  rw [List.takeWhile_cons_of_pos h]
  dsimp only [List.takeWhile_nil]
  rw [if_neg (by simp)]
  simp [hexValNat]

theorem parseIntHex_pair (c1 c2 : Char) (h1 : isHexDigitChar c1 = true)
    (h2 : isHexDigitChar c2 = true) :
    parseIntHex [c1, c2] = some (((16 * hexDigitVal c1 + hexDigitVal c2 : ℕ) : ℤ)) := by
  obtain ⟨hp1, hm1, -, -⟩ := hexDigit_ne c1 h1
  obtain ⟨-, -, hx2, hX2⟩ := hexDigit_ne c2 h2
  have hws : [c1, c2].dropWhile isJsWs = [c1, c2] :=
    dropWhile_eq_self_of _ _ (by
      intro x hxm
      rcases List.mem_cons.mp hxm with rfl | hxm2
      · exact hexDigit_not_ws x h1
      · rw [List.mem_singleton.mp hxm2]
        exact hexDigit_not_ws c2 h2)
  unfold parseIntHex
  dsimp only
  rw [hws]
  dsimp only
  rw [if_neg hp1, if_neg hm1]
  dsimp only
  rw [if_neg (show ¬(c1 = '0' ∧ (c2 = 'x' ∨ c2 = 'X')) from by
    rintro ⟨-, hc | hc⟩
    · exact hx2 hc
    · exact hX2 hc)]
  rw [List.takeWhile_cons_of_pos h1, List.takeWhile_cons_of_pos h2]
  dsimp only [List.takeWhile_nil]
  rw [if_neg (by simp)]
  simp [hexValNat]

/-! ### Claim C6 -/

theorem hexToDecimal_single (c : Char) (h : isHexDigitChar c = true) :
    hexToDecimal [c] = .ok (((hexDigitVal c : ℤ) : ℚ)) := by
  unfold hexToDecimal
  rw [parseIntHex_single c h]

theorem hexToDecimal_pair (c1 c2 : Char) (h1 : isHexDigitChar c1 = true)
    (h2 : isHexDigitChar c2 = true) :
    hexToDecimal [c1, c2] =
      .ok ((((16 * hexDigitVal c1 + hexDigitVal c2 : ℕ) : ℤ) : ℚ)) := by
  unfold hexToDecimal
  rw [parseIntHex_pair c1 c2 h1 h2]

theorem normalize255 : normalizeColorValue 255 = .ok 255 := by
  norm_num [normalizeColorValue, jsRound]

theorem normalize_natCast_le255 (n : ℕ) (h : n ≤ 255) :
    normalizeColorValue (((n : ℤ) : ℚ)) = .ok ((n : ℤ)) := by
  rw [normalizeColorValue_intCast, if_neg (by omega)]

/-- C6 (confirmed): for every 3-hex-digit input (with leading `#`), `fromHex`
sets each channel to the direct 0-15 value of its single hex character, not
the conventional doubled-digit expansion, and alpha defaults to 255; in
particular `fromHex("#FFF")` yields `Color(15, 15, 15, 255)`. -/
theorem claim_C6 :
    (∀ c1 c2 c3 : Char, isHexDigitChar c1 = true → isHexDigitChar c2 = true →
      isHexDigitChar c3 = true →
      fromHex ('#' :: c1 :: c2 :: c3 :: []) =
        .ok ⟨(hexDigitVal c1 : ℤ), (hexDigitVal c2 : ℤ), (hexDigitVal c3 : ℤ), 255⟩) ∧
    fromHex (("#FFF").toList) = .ok ⟨15, 15, 15, 255⟩ := by
  have hgen : ∀ c1 c2 c3 : Char, isHexDigitChar c1 = true →
      isHexDigitChar c2 = true → isHexDigitChar c3 = true →
      fromHex ('#' :: c1 :: c2 :: c3 :: []) =
        .ok ⟨(hexDigitVal c1 : ℤ), (hexDigitVal c2 : ℤ), (hexDigitVal c3 : ℤ), 255⟩ := by
    intro c1 c2 c3 h1 h2 h3
    unfold fromHex
    dsimp only
    rw [jsTrim_eq_self _ ?allws]
    case allws =>
      intro c hc
      rcases List.mem_cons.mp hc with rfl | hc
      · decide
      rcases List.mem_cons.mp hc with rfl | hc
      · exact hexDigit_not_ws c h1
      rcases List.mem_cons.mp hc with rfl | hc
      · exact hexDigit_not_ws c h2
      rcases List.mem_cons.mp hc with rfl | hc
      · exact hexDigit_not_ws c h3
      · exact absurd hc (List.not_mem_nil c)
    rw [stripHash_hash]
    rw [if_pos (show [c1, c2, c3].length = 3 from rfl)]
    rw [show [c1, c2, c3].take 1 = [c1] from rfl,
      show ([c1, c2, c3].drop 1).take 1 = [c2] from rfl,
      show ([c1, c2, c3].drop 2).take 1 = [c3] from rfl]
    rw [hexToDecimal_single c1 h1, exBind_ok,
      hexToDecimal_single c2 h2, exBind_ok,
      hexToDecimal_single c3 h3, exBind_ok]
    exact mkColor_ok_of _ _ _ _ _ _ _ 255
      (normalize_natCast_le255 _ (le_of_lt (Nat.lt_of_lt_of_le (hexDigitVal_lt c1 h1) (by norm_num))))
      (normalize_natCast_le255 _ (le_of_lt (Nat.lt_of_lt_of_le (hexDigitVal_lt c2 h2) (by norm_num))))
      (normalize_natCast_le255 _ (le_of_lt (Nat.lt_of_lt_of_le (hexDigitVal_lt c3 h3) (by norm_num))))
      normalize255
  refine ⟨hgen, ?_⟩
  rw [show ("#FFF").toList = '#' :: 'F' :: 'F' :: 'F' :: [] from rfl]
  rw [hgen 'F' 'F' 'F' (by decide) (by decide) (by decide)]
  decide

/-- Witness for C6: the general 3-digit statement applied to the concrete
digits `0`, `a`, `B`. -/
theorem claim_C6_witness :
    fromHex ('#' :: '0' :: 'a' :: 'B' :: []) = .ok ⟨0, 10, 11, 255⟩ := by
  rw [claim_C6.1 '0' 'a' 'B' (by decide) (by decide) (by decide)]
  decide

/-! ### Claim C7 -/

/-- C7 counterexample: the claim says any non-hex character in an
accepted-length input fails with a hex-format error, but
`fromHex("#0g0000")` succeeds with `Color(0, 0, 0, 255)`: `parseInt("0g", 16)`
stops at the first non-digit and returns 0 instead of `NaN`. -/
theorem claim_C7_counterexample :
    fromHex (("#0g0000").toList) = .ok ⟨0, 0, 0, 255⟩ := by
  rw [show ("#0g0000").toList =
    '#' :: '0' :: 'g' :: '0' :: '0' :: '0' :: '0' :: [] from rfl]
  unfold fromHex
  dsimp only
  rw [show jsTrim ('#' :: '0' :: 'g' :: '0' :: '0' :: '0' :: '0' :: []) =
    '#' :: '0' :: 'g' :: '0' :: '0' :: '0' :: '0' :: [] from by decide]
  rw [stripHash_hash]
  rw [if_neg (by intro hc; simp at hc), if_pos (Or.inl (by simp))]
  rw [show ['0', 'g', '0', '0', '0', '0'].take 2 = ['0', 'g'] from rfl,
    show (['0', 'g', '0', '0', '0', '0'].drop 2).take 2 = ['0', '0'] from rfl,
    show (['0', 'g', '0', '0', '0', '0'].drop 4).take 2 = ['0', '0'] from rfl]
  rw [show hexToDecimal ['0', 'g'] = .ok (((0 : ℤ) : ℚ)) from by
      unfold hexToDecimal
      rw [show parseIntHex ['0', 'g'] = some 0 from by decide],
    exBind_ok]
  rw [show hexToDecimal ['0', '0'] = .ok (((0 : ℤ) : ℚ)) from by
      unfold hexToDecimal
      rw [show parseIntHex ['0', '0'] = some 0 from by decide],
    exBind_ok, exBind_ok]
  rw [if_neg (by intro hc; simp at hc), exPure, exBind_ok]
  exact mkColor_ok_of _ _ _ _ 0 0 0 255
    (normalize_natCast_le255 0 (by norm_num))
    (normalize_natCast_le255 0 (by norm_num))
    (normalize_natCast_le255 0 (by norm_num))
    normalize255

/-- C7 (amended): `fromHex` (after trimming and `#`-stripping) fails with a
FormatError whenever the remaining length is not exactly 3, 6 or 8, and an
accepted-length input all of whose characters are hex digits succeeds, with
a missing alpha pair defaulting to 255; however a non-hex character does not
always cause failure: a 2-character channel slice fails with the hex-format
error only when `parseInt(_, 16)` finds no digit prefix at all, and a slice
whose first character is a hex digit parses as its digit prefix (see the
counterexample `"#0g0000"`). -/
theorem claim_C7 :
    (∀ s : List Char, (stripHash (jsTrim s)).length ≠ 3 →
      (stripHash (jsTrim s)).length ≠ 6 → (stripHash (jsTrim s)).length ≠ 8 →
      fromHex s = .error .invalidHex) ∧
    (∀ c1 c2 c3 c4 c5 c6 : Char, isHexDigitChar c1 = true →
      isHexDigitChar c2 = true → isHexDigitChar c3 = true →
      isHexDigitChar c4 = true → isHexDigitChar c5 = true →
      isHexDigitChar c6 = true →
      fromHex ('#' :: c1 :: c2 :: c3 :: c4 :: c5 :: c6 :: []) =
        .ok ⟨(16 * hexDigitVal c1 + hexDigitVal c2 : ℕ),
          (16 * hexDigitVal c3 + hexDigitVal c4 : ℕ),
          (16 * hexDigitVal c5 + hexDigitVal c6 : ℕ), 255⟩) ∧
    (∀ c1 c2 c3 c4 c5 c6 c7 c8 : Char, isHexDigitChar c1 = true →
      isHexDigitChar c2 = true → isHexDigitChar c3 = true →
      isHexDigitChar c4 = true → isHexDigitChar c5 = true →
      isHexDigitChar c6 = true → isHexDigitChar c7 = true →
      isHexDigitChar c8 = true →
      fromHex ('#' :: c1 :: c2 :: c3 :: c4 :: c5 :: c6 :: c7 :: c8 :: []) =
        .ok ⟨(16 * hexDigitVal c1 + hexDigitVal c2 : ℕ),
          (16 * hexDigitVal c3 + hexDigitVal c4 : ℕ),
          (16 * hexDigitVal c5 + hexDigitVal c6 : ℕ),
          (16 * hexDigitVal c7 + hexDigitVal c8 : ℕ)⟩) := by
  have hbound : ∀ x y : Char, isHexDigitChar x = true → isHexDigitChar y = true →
      (16 * hexDigitVal x + hexDigitVal y : ℕ) ≤ 255 := by
    intro x y hx hy
    have := hexDigitVal_lt x hx
    have := hexDigitVal_lt y hy
    omega
  refine ⟨?_, ?_, ?_⟩
  · intro s h3 h6 h8
    unfold fromHex
    dsimp only
    rw [if_neg h3, if_neg (by rintro (hc | hc) <;> [exact h6 hc; exact h8 hc])]
  · intro c1 c2 c3 c4 c5 c6 h1 h2 h3 h4 h5 h6
    unfold fromHex
    dsimp only
    rw [jsTrim_eq_self _ ?allws6]
    case allws6 =>
      intro c hc
      rcases List.mem_cons.mp hc with rfl | hc
      · decide
      rcases List.mem_cons.mp hc with rfl | hc
      · exact hexDigit_not_ws c h1
      rcases List.mem_cons.mp hc with rfl | hc
      · exact hexDigit_not_ws c h2
      rcases List.mem_cons.mp hc with rfl | hc
      · exact hexDigit_not_ws c h3
      rcases List.mem_cons.mp hc with rfl | hc
      · exact hexDigit_not_ws c h4
      rcases List.mem_cons.mp hc with rfl | hc
      · exact hexDigit_not_ws c h5
      rcases List.mem_cons.mp hc with rfl | hc
      · exact hexDigit_not_ws c h6
      · exact absurd hc (List.not_mem_nil c)
    rw [stripHash_hash]
    rw [if_neg (by intro hc; simp at hc), if_pos (Or.inl (by simp))]
    rw [show [c1, c2, c3, c4, c5, c6].take 2 = [c1, c2] from rfl,
      show ([c1, c2, c3, c4, c5, c6].drop 2).take 2 = [c3, c4] from rfl,
      show ([c1, c2, c3, c4, c5, c6].drop 4).take 2 = [c5, c6] from rfl]
    rw [hexToDecimal_pair c1 c2 h1 h2, exBind_ok,
      hexToDecimal_pair c3 c4 h3 h4, exBind_ok,
      hexToDecimal_pair c5 c6 h5 h6, exBind_ok]
    rw [if_neg (by intro hc; simp at hc), exPure, exBind_ok]
    exact mkColor_ok_of _ _ _ _ _ _ _ 255
      (normalize_natCast_le255 _ (hbound c1 c2 h1 h2))
      (normalize_natCast_le255 _ (hbound c3 c4 h3 h4))
      (normalize_natCast_le255 _ (hbound c5 c6 h5 h6))
      normalize255
  · intro c1 c2 c3 c4 c5 c6 c7 c8 h1 h2 h3 h4 h5 h6 h7 h8
    unfold fromHex
    dsimp only
    rw [jsTrim_eq_self _ ?allws8]
    case allws8 =>
      intro c hc
      rcases List.mem_cons.mp hc with rfl | hc
      · decide
      rcases List.mem_cons.mp hc with rfl | hc
      · exact hexDigit_not_ws c h1
      rcases List.mem_cons.mp hc with rfl | hc
      · exact hexDigit_not_ws c h2
      rcases List.mem_cons.mp hc with rfl | hc
      · exact hexDigit_not_ws c h3
      rcases List.mem_cons.mp hc with rfl | hc
      · exact hexDigit_not_ws c h4
      rcases List.mem_cons.mp hc with rfl | hc
      · exact hexDigit_not_ws c h5
      rcases List.mem_cons.mp hc with rfl | hc
      · exact hexDigit_not_ws c h6
      rcases List.mem_cons.mp hc with rfl | hc
      · exact hexDigit_not_ws c h7
      rcases List.mem_cons.mp hc with rfl | hc
      · exact hexDigit_not_ws c h8
      · exact absurd hc (List.not_mem_nil c)
    rw [stripHash_hash]
    rw [if_neg (by intro hc; simp at hc), if_pos (Or.inr (by simp))]
    rw [show [c1, c2, c3, c4, c5, c6, c7, c8].take 2 = [c1, c2] from rfl,
      show ([c1, c2, c3, c4, c5, c6, c7, c8].drop 2).take 2 = [c3, c4] from rfl,
      show ([c1, c2, c3, c4, c5, c6, c7, c8].drop 4).take 2 = [c5, c6] from rfl,
      show ([c1, c2, c3, c4, c5, c6, c7, c8].drop 6).take 2 = [c7, c8] from rfl]
    rw [hexToDecimal_pair c1 c2 h1 h2, exBind_ok,
      hexToDecimal_pair c3 c4 h3 h4, exBind_ok,
      hexToDecimal_pair c5 c6 h5 h6, exBind_ok]
    rw [if_pos (by simp)]
    rw [hexToDecimal_pair c7 c8 h7 h8, exBind_ok]
    exact mkColor_ok_of _ _ _ _ _ _ _ _
      (normalize_natCast_le255 _ (hbound c1 c2 h1 h2))
      (normalize_natCast_le255 _ (hbound c3 c4 h3 h4))
      (normalize_natCast_le255 _ (hbound c5 c6 h5 h6))
      (normalize_natCast_le255 _ (hbound c7 c8 h7 h8))

/-- Witness for C7: the amended theorem applied at the concrete inputs
`"zz"` (bad length) and `"#00ff0080"` (8 hex digits). -/
theorem claim_C7_witness :
    fromHex (("zz").toList) = .error .invalidHex ∧
    fromHex ('#' :: '0' :: '0' :: 'f' :: 'f' :: '0' :: '0' :: '8' :: '0' :: []) =
      .ok ⟨0, 255, 0, 128⟩ := by
  constructor
  · exact claim_C7.1 (("zz").toList) (by decide) (by decide) (by decide)
  · rw [claim_C7.2.2 '0' '0' 'f' 'f' '0' '0' '8' '0' (by decide) (by decide)
      (by decide) (by decide) (by decide) (by decide) (by decide) (by decide)]
    decide

/-! ### Claim C3 -/

theorem parseColorNumber_eval (tok : List Char) (mx : ℚ) (sg : ℤ)
    (ip fp fd : ℕ) (ex : ℤ) (lc : Char)
    (hp : parseFloatParts (jsTrim tok) = some (sg, ip, fp, fd, ex))
    (hl : (jsTrim tok).getLast? = some lc) (hlc : lc ≠ '%')
    (hv : 0 ≤ floatVal sg ip fp fd ex) :
    parseColorNumber tok mx = .ok (floatVal sg ip fp fd ex) := by
  unfold parseColorNumber parseFloatQ
  dsimp only
  rw [hp]
  dsimp only
  rw [hl]
  rw [if_neg (show ¬(some lc = some '%') from by simp [hlc])]
  rw [if_neg (show ¬(floatVal sg ip fp fd ex < 0 ∧ mx < floatVal sg ip fp fd ex) from by
    rintro ⟨h1, -⟩
    linarith)]

/-- C3 (confirmed): the parse succeeds only when the presence of the
alpha-marker `a` coincides with the presence of a 4th numeric token: whenever
the regex matches with `typeof match[1] !== typeof match[5]` the parse throws
the FormatError, for `fromRGB` and `fromHSL` alike; in particular
`fromRGB("rgb(255,0,0)")` succeeds while `fromRGB("rgba(255,0,0)")` (marker,
3 tokens) and `fromRGB("rgb(255,0,0,1)")` (no marker, 4 tokens) both fail. -/
theorem claim_C3 :
    (∀ (s : List Char) (m : MatchCaps), execScan rgbKw s = some m →
      m.g1.isSome ≠ m.g5.isSome → fromRGB s = .error .invalidRGB) ∧
    (∀ (s : List Char) (m : MatchCaps), execScan hslKw s = some m →
      m.g1.isSome ≠ m.g5.isSome → fromHSL s = .error .invalidHSL) ∧
    fromRGB (("rgb(255,0,0)").toList) = .ok ⟨255, 0, 0, 255⟩ ∧
    fromRGB (("rgba(255,0,0)").toList) = .error .invalidRGB ∧
    fromRGB (("rgb(255,0,0,1)").toList) = .error .invalidRGB := by
  refine ⟨?_, ?_, ?_, ?_, ?_⟩
  · intro s m hm hne
    unfold fromRGB
    rw [hm]
    dsimp only
    rw [if_neg hne]
  · intro s m hm hne
    unfold fromHSL
    rw [hm]
    dsimp only
    rw [if_neg hne]
  · have h255 : parseColorNumber ['2', '5', '5'] 255 = .ok 255 := by
      rw [parseColorNumber_eval ['2', '5', '5'] 255 1 255 0 0 0 '5'
        (by decide) (by decide) (by decide) (by norm_num [floatVal])]
      norm_num [floatVal]
    have h0 : parseColorNumber ['0'] 255 = .ok 0 := by
      rw [parseColorNumber_eval ['0'] 255 1 0 0 0 0 '0'
        (by decide) (by decide) (by decide) (by norm_num [floatVal])]
      norm_num [floatVal]
    unfold fromRGB
    rw [show execScan rgbKw (("rgb(255,0,0)").toList) =
      some ⟨none, ['2', '5', '5'], ['0'], ['0'], none⟩ from by decide]
    dsimp only
    rw [if_pos rfl]
    rw [h255, h0]
    simp only [exBind_ok, exPure]
    exact mkColor_ok_of _ _ _ _ 255 0 0 255
      (by norm_num [normalizeColorValue, jsRound])
      (by norm_num [normalizeColorValue, jsRound])
      (by norm_num [normalizeColorValue, jsRound])
      normalize255
  · unfold fromRGB
    rw [show execScan rgbKw (("rgba(255,0,0)").toList) =
      some ⟨some ['a'], ['2', '5', '5'], ['0'], ['0'], none⟩ from by decide]
    dsimp only
    rw [if_neg (by decide)]
  · unfold fromRGB
    rw [show execScan rgbKw (("rgb(255,0,0,1)").toList) =
      some ⟨none, ['2', '5', '5'], ['0'], ['0'], some ['1']⟩ from by decide]
    dsimp only
    rw [if_neg (by decide)]

/-- Witness for C3: the general mismatch statement applied at the concrete
input `"rgba(255,0,0)"` (marker present, three tokens). -/
theorem claim_C3_witness :
    fromRGB (("rgba(255,0,0)").toList) = .error .invalidRGB :=
  claim_C3.1 (("rgba(255,0,0)").toList)
    ⟨some ['a'], ['2', '5', '5'], ['0'], ['0'], none⟩ (by decide) (by decide)

/-! ### Claim C10 -/

theorem parseColorNumber_eval_pct (tok : List Char) (mx : ℚ) (sg : ℤ)
    (ip fp fd : ℕ) (ex : ℤ)
    (hp : parseFloatParts (jsTrim tok) = some (sg, ip, fp, fd, ex))
    (hl : (jsTrim tok).getLast? = some '%')
    (hv : 0 ≤ floatVal sg ip fp fd ex * (mx / 100)) :
    parseColorNumber tok mx = .ok (floatVal sg ip fp fd ex * (mx / 100)) := by
  unfold parseColorNumber parseFloatQ
  dsimp only
  rw [hp]
  dsimp only
  rw [hl]
  rw [if_pos rfl]
  rw [if_neg (show ¬(floatVal sg ip fp fd ex * (mx / 100) < 0 ∧
      mx < floatVal sg ip fp fd ex * (mx / 100)) from by
    rintro ⟨h1, -⟩
    linarith)]

theorem tryAt_head_ne (k0 : Char) (ks : List Char) (c : Char) (cs : List Char)
    (h : c ≠ k0) : tryAt (k0 :: ks) (c :: cs) = none := by
  unfold tryAt dropKw
  rw [if_neg h]

theorem execScan_prepend (k0 : Char) (ks : List Char) (pre s : List Char)
    (h : ∀ c ∈ pre, c ≠ k0) :
    execScan (k0 :: ks) (pre ++ s) = execScan (k0 :: ks) s := by
  induction pre with
  | nil => rfl
  | cons c rest ih =>
    rw [List.cons_append]
    show (match tryAt (k0 :: ks) (c :: (rest ++ s)) with
      | some m => some m
      | none => execScan (k0 :: ks) (rest ++ s)) = execScan (k0 :: ks) s
    rw [tryAt_head_ne k0 ks c _ (h c (List.mem_cons_self c rest))]
    exact ih (fun x hx => h x (List.mem_cons_of_mem c hx))

/-- C10 counterexample: the string `"rgba(1,2,3) rgb(4,5,6)"` contains the
well-formed substring `"rgb(4,5,6)"` (no marker, three tokens), which on its
own parses to `Color(4,5,6,255)`; the claim therefore says the combined
string succeeds — but `exec` returns the leftmost regex match
`"rgba(1,2,3)"`, whose marker/token mismatch makes `fromRGB` throw. -/
theorem claim_C10_counterexample :
    fromRGB (("rgba(1,2,3) rgb(4,5,6)").toList) = .error .invalidRGB ∧
    fromRGB (("rgb(4,5,6)").toList) = .ok ⟨4, 5, 6, 255⟩ := by
  constructor
  · unfold fromRGB
    rw [show execScan rgbKw (("rgba(1,2,3) rgb(4,5,6)").toList) =
      some ⟨some ['a'], ['1'], ['2'], ['3'], none⟩ from by decide]
    dsimp only
    rw [if_neg (by decide)]
  · have h4 : parseColorNumber ['4'] 255 = .ok 4 := by
      rw [parseColorNumber_eval ['4'] 255 1 4 0 0 0 '4'
        (by decide) (by decide) (by decide) (by norm_num [floatVal])]
      norm_num [floatVal]
    have h5 : parseColorNumber ['5'] 255 = .ok 5 := by
      rw [parseColorNumber_eval ['5'] 255 1 5 0 0 0 '5'
        (by decide) (by decide) (by decide) (by norm_num [floatVal])]
      norm_num [floatVal]
    have h6 : parseColorNumber ['6'] 255 = .ok 6 := by
      rw [parseColorNumber_eval ['6'] 255 1 6 0 0 0 '6'
        (by decide) (by decide) (by decide) (by norm_num [floatVal])]
      norm_num [floatVal]
    unfold fromRGB
    rw [show execScan rgbKw (("rgb(4,5,6)").toList) =
      some ⟨none, ['4'], ['5'], ['6'], none⟩ from by decide]
    dsimp only
    rw [if_pos rfl]
    rw [h4, h5, h6]
    simp only [exBind_ok, exPure]
    exact mkColor_ok_of _ _ _ _ 4 5 6 255
      (by norm_num [normalizeColorValue, jsRound])
      (by norm_num [normalizeColorValue, jsRound])
      (by norm_num [normalizeColorValue, jsRound])
      normalize255

/-- C10 (amended): the grammar matchers are unanchored, but the parse uses
the FIRST regex match, not the first well-formed substring: text before the
first possible match start is skipped (any prefix without the keyword's
first letter is transparent), and text after the closing paren of the match
is ignored; e.g. `fromRGB("xx rgb(1,2,3) yy")` yields `Color(1,2,3,255)` and
`fromHSL("xx hsl(0,0%,0%) yy")` yields `Color(0,0,0,255)`.  (When an earlier
regex match exists with mismatched marker/token-count, the parse fails even
if a later well-formed substring is present — see the counterexample.) -/
theorem claim_C10 :
    (∀ pre s : List Char, (∀ c ∈ pre, c ≠ 'r') →
      fromRGB (pre ++ s) = fromRGB s) ∧
    (∀ pre s : List Char, (∀ c ∈ pre, c ≠ 'h') →
      fromHSL (pre ++ s) = fromHSL s) ∧
    fromRGB (("xx rgb(1,2,3) yy").toList) = .ok ⟨1, 2, 3, 255⟩ ∧
    fromHSL (("xx hsl(0,0%,0%) yy").toList) = .ok ⟨0, 0, 0, 255⟩ := by
  refine ⟨?_, ?_, ?_, ?_⟩
  · intro pre s h
    unfold fromRGB
    rw [show rgbKw = 'r' :: ['g', 'b'] from rfl, execScan_prepend _ _ pre s h]
  · intro pre s h
    unfold fromHSL
    rw [show hslKw = 'h' :: ['s', 'l'] from rfl, execScan_prepend _ _ pre s h]
  · have h1 : parseColorNumber ['1'] 255 = .ok 1 := by
      rw [parseColorNumber_eval ['1'] 255 1 1 0 0 0 '1'
        (by decide) (by decide) (by decide) (by norm_num [floatVal])]
      norm_num [floatVal]
    have h2 : parseColorNumber ['2'] 255 = .ok 2 := by
      rw [parseColorNumber_eval ['2'] 255 1 2 0 0 0 '2'
        (by decide) (by decide) (by decide) (by norm_num [floatVal])]
      norm_num [floatVal]
    have h3 : parseColorNumber ['3'] 255 = .ok 3 := by
      rw [parseColorNumber_eval ['3'] 255 1 3 0 0 0 '3'
        (by decide) (by decide) (by decide) (by norm_num [floatVal])]
      norm_num [floatVal]
    unfold fromRGB
    rw [show execScan rgbKw (("xx rgb(1,2,3) yy").toList) =
      some ⟨none, ['1'], ['2'], ['3'], none⟩ from by decide]
    dsimp only
    rw [if_pos rfl]
    rw [h1, h2, h3]
    simp only [exBind_ok, exPure]
    exact mkColor_ok_of _ _ _ _ 1 2 3 255
      (by norm_num [normalizeColorValue, jsRound])
      (by norm_num [normalizeColorValue, jsRound])
      (by norm_num [normalizeColorValue, jsRound])
      normalize255
  · have h0 : parseColorNumber ['0'] 360 = .ok 0 := by
      rw [parseColorNumber_eval ['0'] 360 1 0 0 0 0 '0'
        (by decide) (by decide) (by decide) (by norm_num [floatVal])]
      norm_num [floatVal]
    have hpct : parseColorNumber ['0', '%'] 1 =
        .ok (floatVal 1 0 0 0 0 * (1 / 100)) :=
      parseColorNumber_eval_pct ['0', '%'] 1 1 0 0 0 0
        (by decide) (by decide) (by norm_num [floatVal])
    unfold fromHSL
    rw [show execScan hslKw (("xx hsl(0,0%,0%) yy").toList) =
      some ⟨none, ['0'], ['0', '%'], ['0', '%'], none⟩ from by decide]
    dsimp only
    rw [if_pos rfl]
    rw [h0, hpct]
    simp only [exBind_ok, exPure]
    norm_num [floatVal, fromHSLObject, hslTriple, mkColor, normalizeColorValue,
      jsRound, exBind_ok, exPure]

/-- Witness for C10: the prefix-transparency statement applied at the
concrete prefix `"xy "` and input `"rgb(4,5,6)"`. -/
theorem claim_C10_witness :
    fromRGB (("xy ").toList ++ ("rgb(4,5,6)").toList) =
      fromRGB (("rgb(4,5,6)").toList) :=
  claim_C10.1 (("xy ").toList) (("rgb(4,5,6)").toList) (by decide)

/-! ### Claim C9: exactness of the HSL round trip

On exact rationals the `toHSLAObject` / `fromHSLObject` pair inverts exactly
on the three color channels; the proofs below walk the piecewise
`hueToRGB` through each ordering of the channels. -/

theorem hueToRGB_seg1 (p q t : ℚ) (h0 : 0 ≤ t) (h1 : t < 1 / 6) :
    hueToRGB p q t = p + (q - p) * 6 * t := by
  unfold hueToRGB
  dsimp only
  rw [if_neg (by linarith : ¬t < 0), if_neg (by linarith : ¬t > 1),
    if_pos h1]

theorem hueToRGB_seg2 (p q t : ℚ) (h0 : 1 / 6 ≤ t) (h1 : t < 1 / 2) :
    hueToRGB p q t = q := by
  unfold hueToRGB
  dsimp only
  rw [if_neg (by linarith : ¬t < 0), if_neg (by linarith : ¬t > 1),
    if_neg (by linarith : ¬t < 1 / 6), if_pos h1]

theorem hueToRGB_seg3 (p q t : ℚ) (h0 : 1 / 2 ≤ t) (h1 : t < 2 / 3) :
    hueToRGB p q t = p + (q - p) * (2 / 3 - t) * 6 := by
  unfold hueToRGB
  dsimp only
  rw [if_neg (by linarith : ¬t < 0), if_neg (by linarith : ¬t > 1),
    if_neg (by linarith : ¬t < 1 / 6), if_neg (by linarith : ¬t < 1 / 2),
    if_pos h1]

theorem hueToRGB_seg4 (p q t : ℚ) (h0 : 2 / 3 ≤ t) (h1 : t ≤ 1) :
    hueToRGB p q t = p := by
  unfold hueToRGB
  dsimp only
  rw [if_neg (by linarith : ¬t < 0), if_neg (by linarith : ¬t > 1),
    if_neg (by linarith : ¬t < 1 / 6), if_neg (by linarith : ¬t < 1 / 2),
    if_neg (by linarith : ¬t < 2 / 3)]

theorem hueToRGB_wrap_neg (p q t : ℚ) (h0 : t < 0) (h1 : -1 ≤ t) :
    hueToRGB p q t = hueToRGB p q (t + 1) := by
  unfold hueToRGB
  dsimp only
  rw [if_pos h0, if_neg (by linarith : ¬t + 1 < 0),
    if_neg (by linarith : ¬t + 1 > 1)]

theorem hueToRGB_wrap_gt (p q t : ℚ) (h0 : 1 < t) (h1 : t ≤ 2) :
    hueToRGB p q t = hueToRGB p q (t - 1) := by
  unfold hueToRGB
  dsimp only
  rw [if_neg (by linarith : ¬t < 0), if_pos (show t > 1 from h0),
    if_neg (by linarith : ¬t - 1 < 0), if_neg (by linarith : ¬t - 1 > 1)]

/-- The chroma midpoints invert exactly: for `m < M` in `[0, 1]`, the
saturation computed by `toHSLAObject` is positive and the `q` midpoint
computed by `fromHSLObject` from `(s, l)` equals `M` again. -/
theorem hsl_q_eq (M m : ℚ) (hlt : m < M) (hm0 : 0 ≤ m) (hM1 : M ≤ 1) :
    0 < (if 1 / 2 < (M + m) / 2 then (M - m) / (2 - M - m)
      else (M - m) / (M + m)) ∧
    (if (M + m) / 2 < 1 / 2 then
      (M + m) / 2 *
        (1 + (if 1 / 2 < (M + m) / 2 then (M - m) / (2 - M - m)
          else (M - m) / (M + m)))
    else
      (M + m) / 2 +
        (if 1 / 2 < (M + m) / 2 then (M - m) / (2 - M - m)
          else (M - m) / (M + m)) -
        (M + m) / 2 *
          (if 1 / 2 < (M + m) / 2 then (M - m) / (2 - M - m)
            else (M - m) / (M + m))) = M := by
  rcases lt_trichotomy ((M + m) / 2) (1 / 2) with hl | hl | hl
  · have hpos : 0 < M + m := by linarith
    rw [if_neg (by linarith : ¬(1 : ℚ) / 2 < (M + m) / 2), if_pos hl]
    refine ⟨div_pos (by linarith) hpos, ?_⟩
    field_simp
    ring
  · have hsum : M + m = 1 := by linarith
    rw [if_neg (by linarith : ¬(1 : ℚ) / 2 < (M + m) / 2),
      if_neg (by linarith : ¬(M + m) / 2 < 1 / 2)]
    have hpos : 0 < M + m := by linarith
    refine ⟨div_pos (by linarith) hpos, ?_⟩
    rw [hsum]
    ring_nf
    linarith
  · have hpos : 0 < 2 - M - m := by nlinarith
    rw [if_pos hl, if_neg (by linarith : ¬(M + m) / 2 < 1 / 2)]
    refine ⟨div_pos (by linarith) hpos, ?_⟩
    field_simp
    ring

theorem hsl_case_R1 (r g b : ℚ) (hb0 : 0 ≤ b) (hr1 : r ≤ 1)
    (hbg : b ≤ g) (hgr : g ≤ r) (hbr : b < r) :
    hslTriple ((g - b) / (r - b) / 6)
      (if 1 / 2 < (r + b) / 2 then (r - b) / (2 - r - b) else (r - b) / (r + b))
      ((r + b) / 2) = (r, g, b) := by
  obtain ⟨hs_pos, hq⟩ := hsl_q_eq r b hbr hb0 hr1
  have hd : (0 : ℚ) < r - b := by linarith
  have hu0 : 0 ≤ (g - b) / (r - b) := div_nonneg (by linarith) hd.le
  have hu1 : (g - b) / (r - b) ≤ 1 := (div_le_one hd).mpr (by linarith)
  unfold hslTriple
  rw [if_neg hs_pos.ne']
  dsimp only
  rw [hq, show 2 * ((r + b) / 2) - r = b from by ring]
  simp only [Prod.mk.injEq]
  refine ⟨?_, ?_, ?_⟩
  · rcases lt_or_eq_of_le hu1 with hu | hu
    · rw [hueToRGB_seg2 b r _ (by linarith) (by linarith)]
    · rw [hu, hueToRGB_seg3 b r _ (by norm_num) (by norm_num)]
      ring
  · rcases lt_or_eq_of_le hu1 with hu | hu
    · rw [hueToRGB_seg1 b r _ (by linarith) (by linarith)]
      field_simp
    · have hgr2 : g = r := by
        rw [div_eq_one_iff_eq hd.ne'] at hu
        linarith
      rw [hu, hueToRGB_seg2 b r _ (by norm_num) (by norm_num)]
      exact hgr2.symm
  · rw [hueToRGB_wrap_neg b r _ (by linarith) (by linarith),
      hueToRGB_seg4 b r _ (by linarith) (by linarith)]

theorem hsl_case_R2 (r g b : ℚ) (hg0 : 0 ≤ g) (hr1 : r ≤ 1)
    (hgb : g < b) (hbr : b ≤ r) :
    hslTriple (((g - b) / (r - g) + 6) / 6)
      (if 1 / 2 < (r + g) / 2 then (r - g) / (2 - r - g) else (r - g) / (r + g))
      ((r + g) / 2) = (r, g, b) := by
  have hgr : g < r := by linarith
  obtain ⟨hs_pos, hq⟩ := hsl_q_eq r g hgr hg0 hr1
  have hd : (0 : ℚ) < r - g := by linarith
  have hun : (g - b) / (r - g) < 0 := div_neg_of_neg_of_pos (by linarith) hd
  have hum : -1 ≤ (g - b) / (r - g) := (le_div_iff₀ hd).mpr (by linarith)
  unfold hslTriple
  rw [if_neg hs_pos.ne']
  dsimp only
  rw [hq, show 2 * ((r + g) / 2) - r = g from by ring]
  simp only [Prod.mk.injEq]
  refine ⟨?_, ?_, ?_⟩
  · rw [hueToRGB_wrap_gt g r _ (by linarith) (by linarith),
      hueToRGB_seg2 g r _ (by linarith) (by linarith)]
  · rw [hueToRGB_seg4 g r _ (by linarith) (by linarith)]
  · rw [hueToRGB_seg3 g r _ (by linarith) (by linarith)]
    field_simp
    ring

theorem hsl_case_B1 (r g b : ℚ) (hg0 : 0 ≤ g) (hb1 : b ≤ 1)
    (hgr : g ≤ r) (hrb : r < b) :
    hslTriple (((r - g) / (b - g) + 4) / 6)
      (if 1 / 2 < (b + g) / 2 then (b - g) / (2 - b - g) else (b - g) / (b + g))
      ((b + g) / 2) = (r, g, b) := by
  have hgb : g < b := by linarith
  obtain ⟨hs_pos, hq⟩ := hsl_q_eq b g hgb hg0 hb1
  have hd : (0 : ℚ) < b - g := by linarith
  have hu0 : 0 ≤ (r - g) / (b - g) := div_nonneg (by linarith) hd.le
  have hu1 : (r - g) / (b - g) < 1 := (div_lt_one hd).mpr (by linarith)
  unfold hslTriple
  rw [if_neg hs_pos.ne']
  dsimp only
  rw [hq, show 2 * ((b + g) / 2) - b = g from by ring]
  simp only [Prod.mk.injEq]
  refine ⟨?_, ?_, ?_⟩
  · rcases eq_or_lt_of_le hu0 with hu | hu
    · rw [← hu, hueToRGB_seg4 g b _ (by norm_num) (by norm_num)]
      rcases div_eq_zero_iff.mp hu.symm with h0 | h0
      · linarith
      · exact absurd h0 hd.ne'
    · rw [hueToRGB_wrap_gt g b _ (by linarith) (by linarith),
        hueToRGB_seg1 g b _ (by linarith) (by linarith)]
      field_simp
      ring
  · rw [hueToRGB_seg4 g b _ (by linarith) (by linarith)]
  · rw [hueToRGB_seg2 g b _ (by linarith) (by linarith)]

theorem hsl_case_G1 (r g b : ℚ) (hr0 : 0 ≤ r) (hg1 : g ≤ 1)
    (hrg : r < g) (hbg : b ≤ g) (hrb : r ≤ b) :
    hslTriple (((b - r) / (g - r) + 2) / 6)
      (if 1 / 2 < (g + r) / 2 then (g - r) / (2 - g - r) else (g - r) / (g + r))
      ((g + r) / 2) = (r, g, b) := by
  obtain ⟨hs_pos, hq⟩ := hsl_q_eq g r hrg hr0 hg1
  have hd : (0 : ℚ) < g - r := by linarith
  have hu0 : 0 ≤ (b - r) / (g - r) := div_nonneg (by linarith) hd.le
  have hu1 : (b - r) / (g - r) ≤ 1 := (div_le_one hd).mpr (by linarith)
  unfold hslTriple
  rw [if_neg hs_pos.ne']
  dsimp only
  rw [hq, show 2 * ((g + r) / 2) - g = r from by ring]
  simp only [Prod.mk.injEq]
  refine ⟨?_, ?_, ?_⟩
  · rw [hueToRGB_seg4 r g _ (by linarith) (by linarith)]
  · rcases lt_or_eq_of_le hu1 with hu | hu
    · rw [hueToRGB_seg2 r g _ (by linarith) (by linarith)]
    · rw [hu, hueToRGB_seg3 r g _ (by norm_num) (by norm_num)]
      ring
  · rcases lt_or_eq_of_le hu1 with hu | hu
    · rw [hueToRGB_seg1 r g _ (by linarith) (by linarith)]
      field_simp
      ring
    · have hbg2 : b = g := by
        rw [div_eq_one_iff_eq hd.ne'] at hu
        linarith
      rw [hu, hueToRGB_seg2 r g _ (by norm_num) (by norm_num)]
      exact hbg2.symm

theorem hsl_case_G2 (r g b : ℚ) (hb0 : 0 ≤ b) (hg1 : g ≤ 1)
    (hrg : r < g) (hbr : b < r) :
    hslTriple (((b - r) / (g - b) + 2) / 6)
      (if 1 / 2 < (g + b) / 2 then (g - b) / (2 - g - b) else (g - b) / (g + b))
      ((g + b) / 2) = (r, g, b) := by
  have hbg : b < g := by linarith
  obtain ⟨hs_pos, hq⟩ := hsl_q_eq g b hbg hb0 hg1
  have hd : (0 : ℚ) < g - b := by linarith
  have hun : (b - r) / (g - b) < 0 := div_neg_of_neg_of_pos (by linarith) hd
  have hum : -1 < (b - r) / (g - b) := (lt_div_iff₀ hd).mpr (by linarith)
  unfold hslTriple
  rw [if_neg hs_pos.ne']
  dsimp only
  rw [hq, show 2 * ((g + b) / 2) - g = b from by ring]
  simp only [Prod.mk.injEq]
  refine ⟨?_, ?_, ?_⟩
  · rw [hueToRGB_seg3 b g _ (by linarith) (by linarith)]
    field_simp
    ring
  · rw [hueToRGB_seg2 b g _ (by linarith) (by linarith)]
  · rw [hueToRGB_wrap_neg b g _ (by linarith) (by linarith),
      hueToRGB_seg4 b g _ (by linarith) (by linarith)]

theorem hsl_case_B2 (r g b : ℚ) (hr0 : 0 ≤ r) (hb1 : b ≤ 1)
    (hrg : r < g) (hgb : g < b) :
    hslTriple (((r - g) / (b - r) + 4) / 6)
      (if 1 / 2 < (b + r) / 2 then (b - r) / (2 - b - r) else (b - r) / (b + r))
      ((b + r) / 2) = (r, g, b) := by
  have hrb : r < b := by linarith
  obtain ⟨hs_pos, hq⟩ := hsl_q_eq b r hrb hr0 hb1
  have hd : (0 : ℚ) < b - r := by linarith
  have hun : (r - g) / (b - r) < 0 := div_neg_of_neg_of_pos (by linarith) hd
  have hum : -1 < (r - g) / (b - r) := (lt_div_iff₀ hd).mpr (by linarith)
  unfold hslTriple
  rw [if_neg hs_pos.ne']
  dsimp only
  rw [hq, show 2 * ((b + r) / 2) - b = r from by ring]
  simp only [Prod.mk.injEq]
  refine ⟨?_, ?_, ?_⟩
  · rw [hueToRGB_seg4 r b _ (by linarith) (by linarith)]
  · rw [hueToRGB_seg3 r b _ (by linarith) (by linarith)]
    field_simp
    ring
  · rw [hueToRGB_seg2 r b _ (by linarith) (by linarith)]

/-- Exact inversion: feeding the `(h, s, l)` triple computed by
`toHSLAObject` back through the `fromHSLObject` channel computation returns
the original `[0, 1]` channel triple exactly. -/
theorem hsl_roundtrip_core (r g b : ℚ)
    (hr0 : 0 ≤ r) (hr1 : r ≤ 1) (hg0 : 0 ≤ g) (hg1 : g ≤ 1)
    (hb0 : 0 ≤ b) (hb1 : b ≤ 1) :
    hslTriple (rgbToHSL r g b).1 (rgbToHSL r g b).2.1 (rgbToHSL r g b).2.2 =
      (r, g, b) := by
  unfold rgbToHSL
  dsimp only
  by_cases heq : max r (max g b) = min r (min g b)
  · rw [if_pos heq]
    dsimp only
    have h1 : r ≤ max r (max g b) := le_max_left _ _
    have h2 : min r (min g b) ≤ r := min_le_left _ _
    have h3 : g ≤ max r (max g b) := le_max_of_le_right (le_max_left g b)
    have h4 : min r (min g b) ≤ g := min_le_of_right_le (min_le_left g b)
    have h5 : b ≤ max r (max g b) := le_max_of_le_right (le_max_right g b)
    have h6 : min r (min g b) ≤ b := min_le_of_right_le (min_le_right g b)
    rw [heq] at h1 h3 h5
    unfold hslTriple
    rw [if_pos rfl]
    simp only [Prod.mk.injEq]
    refine ⟨by rw [heq]; linarith, by rw [heq]; linarith, by rw [heq]; linarith⟩
  · rw [if_neg heq]
    dsimp only
    have hle : min r (min g b) ≤ max r (max g b) :=
      le_trans (min_le_left _ _) (le_max_left _ _)
    have hlt : min r (min g b) < max r (max g b) :=
      lt_of_le_of_ne hle (fun h => heq h.symm)
    rcases le_or_lt g r with hgr | hrg
    · rcases le_or_lt b r with hbr | hrb
      · have hmax : max r (max g b) = r := max_eq_left (max_le hgr hbr)
        rcases le_or_lt b g with hbg | hgb
        · have hmin : min r (min g b) = b := by
            rw [min_eq_right hbg, min_eq_right hbr]
          rw [hmax, hmin] at hlt ⊢
          rw [if_pos rfl, if_neg (not_lt.mpr hbg), add_zero]
          exact hsl_case_R1 r g b hb0 hr1 hbg hgr hlt
        · have hmin : min r (min g b) = g := by
            rw [min_eq_left hgb.le, min_eq_right hgr]
          rw [hmax, hmin] at hlt ⊢
          rw [if_pos rfl, if_pos hgb]
          exact hsl_case_R2 r g b hg0 hr1 hgb hbr
      · have hgb : g < b := lt_of_le_of_lt hgr hrb
        have hmax : max r (max g b) = b := by
          rw [max_eq_right hgb.le, max_eq_right hrb.le]
        have hmin : min r (min g b) = g := by
          rw [min_eq_left hgb.le, min_eq_right hgr]
        rw [hmax, hmin] at hlt ⊢
        rw [if_neg (ne_of_gt hrb), if_neg (ne_of_gt hgb), if_pos rfl]
        exact hsl_case_B1 r g b hg0 hb1 hgr hrb
    · rcases le_or_lt b g with hbg | hgb
      · have hmax : max r (max g b) = g := by
          rw [max_eq_left hbg, max_eq_right hrg.le]
        rcases le_or_lt r b with hrb | hbr
        · have hmin : min r (min g b) = r := by
            rw [min_eq_right hbg, min_eq_left hrb]
          rw [hmax, hmin] at hlt ⊢
          rw [if_neg (ne_of_gt hrg), if_pos rfl]
          exact hsl_case_G1 r g b hr0 hg1 hrg hbg hrb
        · have hmin : min r (min g b) = b := by
            rw [min_eq_right hbg, min_eq_right hbr.le]
          rw [hmax, hmin] at hlt ⊢
          rw [if_neg (ne_of_gt hrg), if_pos rfl]
          exact hsl_case_G2 r g b hb0 hg1 hrg hbr
      · have hmax : max r (max g b) = b := by
          rw [max_eq_right hgb.le, max_eq_right (le_trans hrg.le hgb.le)]
        have hmin : min r (min g b) = r := by
          rw [min_eq_left hgb.le, min_eq_left hrg.le]
        rw [hmax, hmin] at hlt ⊢
        rw [if_neg (ne_of_gt (lt_trans hrg hgb)), if_neg (ne_of_gt hgb),
          if_pos rfl]
        exact hsl_case_B2 r g b hr0 hb1 hrg hgb

/-- C9 counterexample: the claim says every channel of the RGB→HSL→RGB round
trip differs from the original by at most 1, but a Color with alpha 0 comes
back with alpha 255 (the `hslaObject.a ? ... : 255` truthiness bug), a
difference of 255. -/
theorem claim_C9_counterexample :
    fromHSLObject (Color.toHSLAObject ⟨0, 0, 0, 0⟩) = .ok ⟨0, 0, 0, 255⟩ ∧
    ¬((255 : ℤ) - 0 ≤ 1) := by
  constructor
  · norm_num [Color.toHSLAObject, rgbToHSL, fromHSLObject, hslTriple, mkColor,
      normalizeColorValue, jsRound, exBind_ok, exPure]
  · norm_num

/-- C9 (amended): on exact rationals the RGB→HSL→RGB round trip reproduces
the three color channels exactly (difference 0, well within the claimed ±1
tolerance); the alpha channel comes back exactly as well when it is nonzero,
but an alpha channel of 0 comes back as 255 because of the truthiness test
in `fromHSLObject`. -/
theorem claim_C9 (R G B A : ℤ)
    (hR0 : 0 ≤ R) (hR1 : R ≤ 255) (hG0 : 0 ≤ G) (hG1 : G ≤ 255)
    (hB0 : 0 ≤ B) (hB1 : B ≤ 255) (hA0 : 0 ≤ A) (hA1 : A ≤ 255) :
    fromHSLObject (Color.toHSLAObject ⟨R, G, B, A⟩) =
      .ok ⟨R, G, B, if A = 0 then 255 else A⟩ := by
  unfold Color.toHSLAObject fromHSLObject
  dsimp only
  rw [hsl_roundtrip_core ((R : ℚ) / 255) ((G : ℚ) / 255) ((B : ℚ) / 255)
    (div_nonneg (by exact_mod_cast hR0) (by norm_num))
    ((div_le_one (by norm_num)).mpr (by exact_mod_cast hR1))
    (div_nonneg (by exact_mod_cast hG0) (by norm_num))
    ((div_le_one (by norm_num)).mpr (by exact_mod_cast hG1))
    (div_nonneg (by exact_mod_cast hB0) (by norm_num))
    ((div_le_one (by norm_num)).mpr (by exact_mod_cast hB1))]
  dsimp only
  rw [show ((R : ℚ) / 255 * 255) = ((R : ℚ)) from by field_simp,
    show ((G : ℚ) / 255 * 255) = ((G : ℚ)) from by field_simp,
    show ((B : ℚ) / 255 * 255) = ((B : ℚ)) from by field_simp]
  by_cases hA : A = 0
  · rw [if_pos hA, if_pos (show ((A : ℚ)) / 255 = 0 from by rw [hA]; norm_num)]
    exact mkColor_ok_of _ _ _ _ R G B 255
      (by rw [normalizeColorValue_intCast, if_neg (by omega)])
      (by rw [normalizeColorValue_intCast, if_neg (by omega)])
      (by rw [normalizeColorValue_intCast, if_neg (by omega)])
      normalize255
  · rw [if_neg hA, if_neg (show ¬((A : ℚ)) / 255 = 0 from by
      intro hc
      rw [div_eq_zero_iff] at hc
      rcases hc with hc | hc
      · exact hA (by exact_mod_cast hc)
      · norm_num at hc)]
    rw [show ((A : ℚ) / 255 * 255) = ((A : ℚ)) from by field_simp]
    exact mkColor_ok_of _ _ _ _ R G B A
      (by rw [normalizeColorValue_intCast, if_neg (by omega)])
      (by rw [normalizeColorValue_intCast, if_neg (by omega)])
      (by rw [normalizeColorValue_intCast, if_neg (by omega)])
      (by rw [normalizeColorValue_intCast, if_neg (by omega)])

/-- Witness for C9: the amended round-trip theorem applied to the concrete
colors (10, 20, 30, 93) (alpha preserved exactly) and (10, 20, 30, 0)
(alpha 0 comes back as 255). -/
theorem claim_C9_witness :
    fromHSLObject (Color.toHSLAObject ⟨10, 20, 30, 93⟩) = .ok ⟨10, 20, 30, 93⟩ ∧
    fromHSLObject (Color.toHSLAObject ⟨10, 20, 30, 0⟩) = .ok ⟨10, 20, 30, 255⟩ := by
  constructor
  · rw [claim_C9 10 20 30 93 (by decide) (by decide) (by decide) (by decide)
      (by decide) (by decide) (by decide) (by decide)]
    decide
  · rw [claim_C9 10 20 30 0 (by decide) (by decide) (by decide) (by decide)
      (by decide) (by decide) (by decide) (by decide)]
    decide
